import Mathlib

/-!
# Channel scripts and transactions of `lnwallet/channel.go`

A shallow embedding of the transaction and script construction code of the
`wallet` package (`P2SHify`, `createCLTVFundingTx`, `createCommitTx`), of
`newLightningChannel` and the methods of `LightningChannel`, together with the
parts of the libraries they call:

* the `txscript.ScriptBuilder` (`AddOp`, `AddData`, `AddInt64`, `Script`),
  with its canonical push encoding and its size limits;
* `scriptNum.Bytes`, the minimal little-endian sign-magnitude encoding of an
  integer;
* `btcec.PublicKey.SerializeCompressed`;
* `wire.MsgTx` with `AddTxIn` / `AddTxOut`;
* a script interpreter for the opcodes the three scripts use, with a data
  stack and a condition stack.

Bytes are natural numbers, byte strings are lists of them.  The hash function
`Hash160` and signature validity are parameters.  A witness is the list of
items pushed before the script runs, the last one on top of the stack.

The definitions come first, then the lemmas about the encodings, the parser
and the engine, then the statements about `channel.go`.
-/

namespace Wallet

/-! ## Opcodes (`txscript`) -/

abbrev OP_0 : Nat := 0x00
abbrev OP_DATA_1 : Nat := 0x01
abbrev OP_DATA_75 : Nat := 0x4b
abbrev OP_PUSHDATA1 : Nat := 0x4c
abbrev OP_PUSHDATA2 : Nat := 0x4d
abbrev OP_PUSHDATA4 : Nat := 0x4e
abbrev OP_1NEGATE : Nat := 0x4f
abbrev OP_1 : Nat := 0x51
abbrev OP_16 : Nat := 0x60
abbrev OP_IF : Nat := 0x63
abbrev OP_ELSE : Nat := 0x67
abbrev OP_ENDIF : Nat := 0x68
abbrev OP_DEPTH : Nat := 0x74
abbrev OP_DROP : Nat := 0x75
abbrev OP_DUP : Nat := 0x76
abbrev OP_EQUAL : Nat := 0x87
abbrev OP_EQUALVERIFY : Nat := 0x88
abbrev OP_HASH160 : Nat := 0xa9
abbrev OP_CHECKSIG : Nat := 0xac
abbrev OP_CHECKSIGVERIFY : Nat := 0xad
abbrev OP_NOP2 : Nat := 0xb1
abbrev OP_NOP3 : Nat := 0xb2

/-- Largest script the builder will produce. -/
abbrev maxScriptSize : Nat := 10000

/-- Largest data element the builder will push. -/
abbrev MaxScriptElementSize : Nat := 520

/-- The pending-payment cap declared at the top of `channel.go`. -/
abbrev MaxPendingPayments : Nat := 10

/-! ## Integer encodings -/

/-- Little-endian base-256 digits of `n`, the loop
`for n > 0 { result = append(result, byte(n & 0xff)); n >>= 8 }`,
run for at most `fuel` rounds. -/
def leBytesAux : Nat → Nat → List Nat
  | 0, _ => []
  | fuel + 1, n => if n = 0 then [] else (n % 256) :: leBytesAux fuel (n / 256)

/-- Little-endian base-256 digits of `n`; `n` rounds always suffice. -/
def leBytes (n : Nat) : List Nat := leBytesAux n n

/-- Set the sign bit (`|= 0x80`) on the last byte of a byte string. -/
def setSignBit : List Nat → List Nat
  | [] => []
  | [b] => [b + 0x80]
  | b :: bs => b :: setSignBit bs

/-- The encoder `scriptNum(n).Bytes()`: zero is the empty string; otherwise
the magnitude in little-endian order, with the sign carried by the high bit of
the last byte, an extra byte being appended when that bit is already in use.
The Go code works on `int64` and negates a negative `n` first, so it is
defined for `-2^63 < n < 2^63` (the negation of `math.MinInt64` overflows);
the embedding is used on that range only. -/
def scriptNumBytes (n : Int) : List Nat :=
  if n = 0 then []
  else
    let isNegative := decide (n < 0)
    let result := leBytes n.natAbs
    if 0x80 ≤ result.getLastD 0 then
      result ++ [if isNegative then 0x80 else 0x00]
    else if isNegative then setSignBit result
    else result

/-- The `int64` values `scriptNum.Bytes` encodes. -/
def scriptNumRange (n : Int) : Prop := -2 ^ 63 < n ∧ n < 2 ^ 63

instance (n : Int) : Decidable (scriptNumRange n) := by
  unfold scriptNumRange; infer_instance

/-! ## `txscript.ScriptBuilder` -/

/-- The one error a builder can hold (`ErrScriptNotCanonical`). -/
inductive ScriptError where
  | notCanonical
  deriving DecidableEq, Repr

/-- A script under construction and the first error met, if any. -/
structure ScriptBuilder where
  script : List Nat
  err : Option ScriptError
  deriving DecidableEq, Repr

/-- An empty builder, as `txscript.NewScriptBuilder()`. -/
def NewScriptBuilder : ScriptBuilder := { script := [], err := none }

/-- Number of bytes the canonical push of `data` occupies. -/
def canonicalDataSize (data : List Nat) : Nat :=
  let dataLen := data.length
  if dataLen = 0 then 1
  else if dataLen = 1 ∧ data.headD 0 ≤ 16 then 1
  else if dataLen = 1 ∧ data.headD 0 = 0x81 then 1
  else if dataLen < OP_PUSHDATA1 then 1 + dataLen
  else if dataLen ≤ 0xff then 2 + dataLen
  else if dataLen ≤ 0xffff then 3 + dataLen
  else 5 + dataLen

/-- The bytes `addData` appends for `data`: a small-integer opcode for a
one-byte number, otherwise the shortest push opcode followed by the data. -/
def pushBytes (data : List Nat) : List Nat :=
  let dataLen := data.length
  if dataLen = 0 ∨ (dataLen = 1 ∧ data.headD 0 = 0) then [OP_0]
  else if dataLen = 1 ∧ data.headD 0 ≤ 16 then [((OP_1 - 1) + data.headD 0) % 256]
  else if dataLen = 1 ∧ data.headD 0 = 0x81 then [OP_1NEGATE]
  else if dataLen < OP_PUSHDATA1 then ((OP_DATA_1 - 1) + dataLen) % 256 :: data
  else if dataLen ≤ 0xff then OP_PUSHDATA1 :: dataLen % 256 :: data
  else if dataLen ≤ 0xffff then
    OP_PUSHDATA2 :: dataLen % 256 :: dataLen / 256 % 256 :: data
  else
    OP_PUSHDATA4 :: dataLen % 256 :: dataLen / 256 % 256 :: dataLen / 65536 % 256
      :: dataLen / 16777216 % 256 :: data

namespace ScriptBuilder

/-- Internal push: no limits are enforced here. -/
def addData (b : ScriptBuilder) (data : List Nat) : ScriptBuilder :=
  { b with script := b.script ++ pushBytes data }

/-- Append one opcode, unless the builder already failed or the script would
grow past `maxScriptSize`. -/
def AddOp (b : ScriptBuilder) (opcode : Nat) : ScriptBuilder :=
  if b.err.isSome then b
  else if b.script.length + 1 > maxScriptSize then
    { b with err := some ScriptError.notCanonical }
  else { b with script := b.script ++ [opcode] }

/-- Append a canonical data push, unless the builder already failed, the
script would grow past `maxScriptSize`, or the element is larger than
`MaxScriptElementSize`. -/
def AddData (b : ScriptBuilder) (data : List Nat) : ScriptBuilder :=
  if b.err.isSome then b
  else if b.script.length + canonicalDataSize data > maxScriptSize then
    { b with err := some ScriptError.notCanonical }
  else if data.length > MaxScriptElementSize then
    { b with err := some ScriptError.notCanonical }
  else b.addData data

/-- Append an integer: `OP_0` for zero, `OP_1NEGATE`/`OP_1`..`OP_16` for
`-1` and `1..16`, otherwise a data push of `scriptNum(val).Bytes()`. -/
def AddInt64 (b : ScriptBuilder) (val : Int) : ScriptBuilder :=
  if b.err.isSome then b
  else if b.script.length + 1 > maxScriptSize then
    { b with err := some ScriptError.notCanonical }
  else if val = 0 then { b with script := b.script ++ [OP_0] }
  else if val = -1 ∨ (1 ≤ val ∧ val ≤ 16) then
    { b with script := b.script ++ [(((OP_1 : Int) - 1 + val) % 256).toNat] }
  else b.AddData (scriptNumBytes val)

/-- The script built so far, or the first error. -/
def Script (b : ScriptBuilder) : Except ScriptError (List Nat) :=
  match b.err with
  | some e => Except.error e
  | none => Except.ok b.script

end ScriptBuilder

/-! ## Keys (`btcec`) -/

/-- A public key as `btcec.PublicKey` holds it: two coordinates. -/
structure PublicKey where
  X : Nat
  Y : Nat
  deriving DecidableEq, Repr

/-- Big-endian bytes of a natural number without leading zeros
(`big.Int.Bytes`). -/
def bigEndianBytes (n : Nat) : List Nat := (leBytes n).reverse

/-- Append `src` to `dst`, left-padded with zeros to `size` bytes. -/
def paddedAppend (size : Nat) (dst src : List Nat) : List Nat :=
  dst ++ List.replicate (size - src.length) 0 ++ src

/-- Compressed serialization: a format byte `0x02`/`0x03` by the parity of
`Y`, then `X` in 32 big-endian bytes. -/
def PublicKey.SerializeCompressed (p : PublicKey) : List Nat :=
  paddedAppend 32 [if p.Y % 2 = 1 then 0x03 else 0x02] (bigEndianBytes p.X)

/-- The field prime of secp256k1. -/
def secp256k1P : Nat := 2 ^ 256 - 2 ^ 32 - 977

/-- Whether the coordinates are a point of secp256k1: both reduced modulo the
field prime and `y² = x³ + 7`. -/
def PublicKey.IsOnCurve (p : PublicKey) : Bool :=
  decide (p.X < secp256k1P) && decide (p.Y < secp256k1P) &&
    decide (p.Y * p.Y % secp256k1P = (p.X * p.X * p.X + 7) % secp256k1P)

/-! ## Transactions (`wire`) -/

/-- A reference to an output of an earlier transaction. -/
structure OutPoint where
  Hash : List Nat
  Index : Nat
  deriving DecidableEq, Repr

/-- A transaction input. -/
structure TxIn where
  PreviousOutPoint : OutPoint
  SignatureScript : List Nat
  Sequence : Nat
  deriving DecidableEq, Repr

/-- A transaction output: a value and the script locking it. -/
structure TxOut where
  Value : Int
  PkScript : List Nat
  deriving DecidableEq, Repr

/-- A transaction. -/
structure MsgTx where
  Version : Int
  TxIn : List TxIn
  TxOut : List TxOut
  LockTime : Nat
  deriving DecidableEq, Repr

/-- An empty version-1 transaction, as `wire.NewMsgTx()`. -/
def NewMsgTx : MsgTx := { Version := 1, TxIn := [], TxOut := [], LockTime := 0 }

/-- Output constructor, as `wire.NewTxOut`. -/
def NewTxOut (value : Int) (pkScript : List Nat) : TxOut :=
  { Value := value, PkScript := pkScript }

/-- Append an input. -/
def MsgTx.AddTxIn (tx : MsgTx) (ti : Wallet.TxIn) : MsgTx :=
  { tx with TxIn := tx.TxIn ++ [ti] }

/-- Append an output. -/
def MsgTx.AddTxOut (tx : MsgTx) (txOut : Wallet.TxOut) : MsgTx :=
  { tx with TxOut := tx.TxOut ++ [txOut] }

/-! ## `channel.go` -/

/-- `P2SHify`: the script `OP_HASH160 <Hash160(scriptBytes)> OP_EQUAL`. -/
def P2SHify (hash160 : List Nat → List Nat) (scriptBytes : List Nat) :
    Except ScriptError (List Nat) :=
  let bldr := NewScriptBuilder
  let bldr := bldr.AddOp OP_HASH160
  let bldr := bldr.AddData (hash160 scriptBytes)
  let bldr := bldr.AddOp OP_EQUAL
  bldr.Script

/-- The builder `script` of `createCLTVFundingTx` after its last `AddOp`, from
the two serialized keys and the time lock. -/
def fundingScriptBuilder (fundingTimeLock : Int) (ourKey theirKey : List Nat) :
    ScriptBuilder :=
  let script := NewScriptBuilder
  let script := script.AddOp OP_DEPTH
  let script := script.AddInt64 2
  let script := script.AddOp OP_EQUAL
  let script := script.AddOp OP_IF
  let script := script.AddData ourKey
  let script := script.AddOp OP_CHECKSIGVERIFY
  let script := script.AddOp OP_ELSE
  let script := script.AddInt64 fundingTimeLock
  let script := script.AddOp OP_NOP2
  let script := script.AddOp OP_CHECKSIG
  let script := script.AddOp OP_DROP
  let script := script.AddOp OP_ENDIF
  let script := script.AddData theirKey
  let script := script.AddOp OP_CHECKSIG
  script

/-- `createCLTVFundingTx`: the script is assembled, and a fresh transaction is
returned to which nothing has been added. -/
def createCLTVFundingTx (fundingTimeLock : Int) (ourKey theirKey : PublicKey) :
    Except ScriptError MsgTx :=
  let _script :=
    fundingScriptBuilder fundingTimeLock ourKey.SerializeCompressed theirKey.SerializeCompressed
  let fundingTx := NewMsgTx
  Except.ok fundingTx

/-- The builder `scriptToUs` of `createCommitTx` after its last `AddOp`. -/
def scriptToUsBuilder (ourKey theirKey revokeHash : List Nat) (csvTimeout : Int) :
    ScriptBuilder :=
  let scriptToUs := NewScriptBuilder
  let scriptToUs := scriptToUs.AddOp OP_HASH160
  let scriptToUs := scriptToUs.AddData revokeHash
  let scriptToUs := scriptToUs.AddOp OP_EQUAL
  let scriptToUs := scriptToUs.AddOp OP_IF
  let scriptToUs := scriptToUs.AddData theirKey
  let scriptToUs := scriptToUs.AddOp OP_ELSE
  let scriptToUs := scriptToUs.AddInt64 csvTimeout
  let scriptToUs := scriptToUs.AddOp OP_NOP3
  let scriptToUs := scriptToUs.AddOp OP_DROP
  let scriptToUs := scriptToUs.AddData ourKey
  let scriptToUs := scriptToUs.AddOp OP_ENDIF
  let scriptToUs := scriptToUs.AddOp OP_CHECKSIG
  scriptToUs

/-- The builder `scriptToThem` of `createCommitTx` after its last `AddOp`. -/
def scriptToThemBuilder (hash160 : List Nat → List Nat) (theirKey : List Nat) :
    ScriptBuilder :=
  let scriptToThem := NewScriptBuilder
  let scriptToThem := scriptToThem.AddOp OP_DUP
  let scriptToThem := scriptToThem.AddOp OP_HASH160
  let scriptToThem := scriptToThem.AddData (hash160 theirKey)
  let scriptToThem := scriptToThem.AddOp OP_EQUALVERIFY
  let scriptToThem := scriptToThem.AddOp OP_CHECKSIG
  scriptToThem

/-- `createCommitTx`: both redeem scripts are built and wrapped by `P2SHify`;
the transaction spends `fundingOutput` and pays `amtToUs` to the first script
hash and `amtToThem` to the second. -/
def createCommitTx (hash160 : List Nat → List Nat) (fundingOutput : TxIn)
    (ourKey theirKey : PublicKey) (revokeHash : List Nat) (csvTimeout : Int)
    (amtToUs amtToThem : Int) : Except ScriptError MsgTx := do
  let scriptToUs :=
    scriptToUsBuilder ourKey.SerializeCompressed theirKey.SerializeCompressed revokeHash csvTimeout
  let ourRedeemScript ← scriptToUs.Script
  let payToUsScriptHash ← P2SHify hash160 ourRedeemScript
  let scriptToThem := scriptToThemBuilder hash160 theirKey.SerializeCompressed
  let theirRedeemScript ← scriptToThem.Script
  let payToThemScriptHash ← P2SHify hash160 theirRedeemScript
  let commitTx := NewMsgTx
  let commitTx := commitTx.AddTxIn fundingOutput
  let commitTx := commitTx.AddTxOut (NewTxOut amtToUs payToUsScriptHash)
  let commitTx := commitTx.AddTxOut (NewTxOut amtToThem payToThemScriptHash)
  return commitTx

/-! ## `LightningChannel` -/

/-- Two's complement wrap to `int64`: the result of Go's `+` on two
`btcutil.Amount` values whose exact sum is `x`. -/
def wrapInt64 (x : Int) : Int := (x + 2 ^ 63) % 2 ^ 64 - 2 ^ 63

/-- A Go `error` value. -/
structure GoError where
  msg : String
  deriving DecidableEq, Repr

/-- The data of a `LightningChannel`.  References to collaborators (wallet,
notifier, database namespace, hash chains) and the private key are handles;
the lock, the quit channel and the wait group hold no channel data. -/
structure LightningChannel where
  wallet : Nat
  channelEvents : Nat
  channelNamespace : Nat
  Id : List Nat
  capacity : Int
  ourTotalFunds : Int
  theirTotalFunds : Int
  ourShaChain : Nat
  theirShaChain : Nat
  ourFundingKey : Nat
  theirFundingKey : PublicKey
  ourCommitKey : PublicKey
  theirCommitKey : PublicKey
  fundingTx : Option MsgTx
  commitmentTx : Option MsgTx
  started : Int
  shutdown : Int
  deriving DecidableEq, Repr

/-- What a method call leaves behind: the value it returns, the error it
returns (`none` for `nil`, and for a method that has no error result), and the
channel after the call. -/
structure Call (α : Type) where
  value : α
  err : Option GoError
  channel : LightningChannel

/-- `newLightningChannel`: a channel holding the arguments, with
`capacity = ourFunds + theirFunds` in `int64` arithmetic, and a nil error. -/
def newLightningChannel (wallet events dbNamespace : Nat) (theirNodeID : List Nat)
    (ourFunds theirFunds : Int) (ourChain theirChain : Nat) (ourFundingKey : Nat)
    (theirFundingKey commitKey theirCommitKey : PublicKey) (fundingTx commitTx : Option MsgTx) :
    Except GoError LightningChannel :=
  Except.ok
    { wallet := wallet
      channelEvents := events
      channelNamespace := dbNamespace
      Id := theirNodeID
      capacity := wrapInt64 (ourFunds + theirFunds)
      ourTotalFunds := ourFunds
      theirTotalFunds := theirFunds
      ourShaChain := ourChain
      theirShaChain := theirChain
      ourFundingKey := ourFundingKey
      theirFundingKey := theirFundingKey
      ourCommitKey := commitKey
      theirCommitKey := theirCommitKey
      fundingTx := fundingTx
      commitmentTx := commitTx
      started := 0
      shutdown := 0 }

namespace LightningChannel

/-- `AddHTLC`: no argument, no result, empty body. -/
def AddHTLC (lc : LightningChannel) : Call Unit :=
  { value := (), err := none, channel := lc }

/-- `SettleHTLC`: no argument, no result, empty body. -/
def SettleHTLC (lc : LightningChannel) : Call Unit :=
  { value := (), err := none, channel := lc }

/-- `OurBalance`: `return 0`. -/
def OurBalance (lc : LightningChannel) : Call Int :=
  { value := 0, err := none, channel := lc }

/-- `TheirBalance`: `return 0`. -/
def TheirBalance (lc : LightningChannel) : Call Int :=
  { value := 0, err := none, channel := lc }

/-- `CurrentCommitTx`: `return nil`. -/
def CurrentCommitTx (lc : LightningChannel) : Call (Option MsgTx) :=
  { value := none, err := none, channel := lc }

/-- `SignTheirCommitTx`: `return nil`. -/
def SignTheirCommitTx (lc : LightningChannel) (_commitTx : Option MsgTx) : Call Unit :=
  { value := (), err := none, channel := lc }

/-- `AddTheirSig`: `return nil`. -/
def AddTheirSig (lc : LightningChannel) (_sig : List Nat) : Call Unit :=
  { value := (), err := none, channel := lc }

/-- `VerifyCommitmentUpdate`: `return nil`. -/
def VerifyCommitmentUpdate (lc : LightningChannel) : Call Unit :=
  { value := (), err := none, channel := lc }

end LightningChannel

/-! ## Closed forms of the built scripts -/

/-- An integer outside the fast path of `AddInt64`. -/
def notSmallInt (v : Int) : Prop := v ≠ 0 ∧ ¬ (v = -1 ∨ (1 ≤ v ∧ v ≤ 16))

/-- The bytes `AddInt64 val` appends to a script. -/
def int64Bytes (val : Int) : List Nat :=
  if val = 0 then [OP_0]
  else if val = -1 ∨ (1 ≤ val ∧ val ≤ 16) then [(((OP_1 : Int) - 1 + val) % 256).toNat]
  else pushBytes (scriptNumBytes val)

/-- The bytes of the to-us redeem script. -/
def toUsScriptBytes (ourKey theirKey revokeHash : List Nat) (csvTimeout : Int) : List Nat :=
  OP_HASH160 :: 32 :: (revokeHash ++ OP_EQUAL :: OP_IF :: 33 :: (theirKey ++ OP_ELSE ::
    (int64Bytes csvTimeout ++ OP_NOP3 :: OP_DROP :: 33 :: (ourKey ++ [OP_ENDIF, OP_CHECKSIG]))))

/-- The bytes of the to-them redeem script: pay to the hash of their key. -/
def toThemScriptBytes (hash160 : List Nat → List Nat) (theirKey : List Nat) : List Nat :=
  OP_DUP :: OP_HASH160 :: 20 :: (hash160 theirKey ++ [OP_EQUALVERIFY, OP_CHECKSIG])

/-- The bytes of the funding script. -/
def fundingScriptBytes (fundingTimeLock : Int) (ourKey theirKey : List Nat) : List Nat :=
  OP_DEPTH :: 0x52 :: OP_EQUAL :: OP_IF :: 33 :: (ourKey ++ OP_CHECKSIGVERIFY :: OP_ELSE ::
    (int64Bytes fundingTimeLock ++ OP_NOP2 :: OP_CHECKSIG :: OP_DROP :: OP_ENDIF :: 33 ::
      (theirKey ++ [OP_CHECKSIG])))

/-! ## Script interpreter

The engine of `txscript` restricted to the opcodes of the three scripts: data
pushes, `OP_IF`/`OP_ELSE`/`OP_ENDIF`, `OP_DEPTH`, `OP_DROP`, `OP_DUP`,
`OP_EQUAL`, `OP_EQUALVERIFY`, `OP_HASH160`, `OP_CHECKSIG`,
`OP_CHECKSIGVERIFY`, and `OP_NOP2` / `OP_NOP3` read as
`OP_CHECKLOCKTIMEVERIFY` (BIP 65) and `OP_CHECKSEQUENCEVERIFY` (BIP 112), with
the kind of the lock, the disable flag and the masked comparison as the engine
makes them.  Any other opcode fails when it is executed. -/

/-- One parsed instruction: the opcode and the data that follows it. -/
structure ParsedOpcode where
  opcode : Nat
  data : List Nat
  deriving DecidableEq, Repr

/-- Value of a little-endian byte string. -/
def leValue : List Nat → Nat
  | [] => 0
  | b :: bs => b + 256 * leValue bs

/-- An `OP_PUSHDATA` instruction: `lenBytes` bytes of little-endian length,
then that many bytes of data. -/
def parsePushData (op lenBytes : Nat) (rest : List Nat) : Option (ParsedOpcode × List Nat) :=
  if rest.length < lenBytes then none
  else
    let l := leValue (rest.take lenBytes)
    let rest2 := rest.drop lenBytes
    if rest2.length < l then none
    else some ({ opcode := op, data := rest2.take l }, rest2.drop l)

/-- Read one instruction off the front of a script, returning it with the
remaining bytes; `none` when a push runs past the end of the script. -/
def parseOne : List Nat → Option (ParsedOpcode × List Nat)
  | [] => none
  | op :: rest =>
    if OP_DATA_1 ≤ op ∧ op ≤ OP_DATA_75 then
      if rest.length < op then none
      else some ({ opcode := op, data := rest.take op }, rest.drop op)
    else if op = OP_PUSHDATA1 then parsePushData op 1 rest
    else if op = OP_PUSHDATA2 then parsePushData op 2 rest
    else if op = OP_PUSHDATA4 then parsePushData op 4 rest
    else some ({ opcode := op, data := [] }, rest)

/-- Parse a script into instructions, one per round of `fuel`. -/
def parseScriptAux : Nat → List Nat → Option (List ParsedOpcode)
  | _, [] => some []
  | 0, _ :: _ => none
  | fuel + 1, op :: rest =>
    match parseOne (op :: rest) with
    | none => none
    | some (pop, rest2) => (parseScriptAux fuel rest2).map (fun ops => pop :: ops)

/-- Parse a whole script; every instruction takes at least one byte, so the
length of the script is enough fuel. -/
def parseScript (script : List Nat) : Option (List ParsedOpcode) :=
  parseScriptAux script.length script

/-- Entry of the condition stack. -/
inductive OpCond where
  | condFalse
  | condTrue
  | condSkip
  deriving DecidableEq, Repr

/-- A check the engine made against something outside the stack: a signature
check, and a lock-time or sequence instruction that looked at its operand and
let the run go on. -/
inductive Event where
  | sigCheck (sig pubKey : List Nat)
  | lockTimeCheck (operand : Int)
  | sequenceCheck (operand : Int)
  deriving DecidableEq, Repr

/-- What a script is run against: the hash function, signature validity (of
a signature under a serialized public key, for the spending transaction), and
of the spending transaction its lock time, the sequence number of the input
that spends the output, and its version.  By BIP 68 a version 2 transaction
whose input has a sequence number with bits 31 and 22 clear enters a block
only when the spent output is as many blocks old as the low 16 bits say. -/
structure Env where
  hash160 : List Nat → List Nat
  checkSig : List Nat → List Nat → Bool
  lockTime : Nat
  sequence : Nat
  txVersion : Nat

/-- Bit 31 of a sequence number, `n & wire.SequenceLockTimeDisabled != 0`. -/
def sequenceLockTimeDisabled (n : Nat) : Bool := decide (n / 2 ^ 31 % 2 = 1)

/-- The bits of a sequence number that are compared,
`n & (wire.SequenceLockTimeIsSeconds | wire.SequenceLockTimeMask)`: bit 22,
which tells a lock in time units from a lock in blocks, and the low 16 bits,
the length of the lock. -/
def sequenceLockTimeMasked (n : Nat) : Nat := n / 2 ^ 22 % 2 * 2 ^ 22 + n % 2 ^ 16

/-- `verifyLockTime`: the two lock times are of the same kind, both below the
threshold or both not, and the script's is not after the transaction's. -/
def verifyLockTime (txLockTime threshold lockTime : Nat) : Bool :=
  (decide (txLockTime < threshold ∧ lockTime < threshold) ||
      decide (threshold ≤ txLockTime ∧ threshold ≤ lockTime)) &&
    !decide (txLockTime < lockTime)

/-- `txscript.LockTimeThreshold`: lock times below it are block heights. -/
abbrev LockTimeThreshold : Nat := 500000000

/-- `wire.MaxTxInSequenceNum`: the sequence number of a final input. -/
abbrev MaxTxInSequenceNum : Nat := 0xffffffff

/-- Engine state: data stack and condition stack (top first), and the checks
made so far, oldest first. -/
structure Engine where
  dstack : List (List Nat)
  condStack : List OpCond
  trace : List Event
  deriving DecidableEq, Repr

/-- Truth value of a stack item: any non-zero byte, except that a lone sign
bit in the last byte (negative zero) is false. -/
def asBool : List Nat → Bool
  | [] => false
  | [b] => decide (b ≠ 0) && decide (b ≠ 0x80)
  | b :: bs => if b ≠ 0 then true else asBool bs

/-- Stack item of a truth value. -/
def fromBool (v : Bool) : List Nat := if v then [1] else []

/-- Decoder of script numbers, `makeScriptNum` without the minimal-encoding
check: `none` when longer than `scriptNumLen` bytes; the high bit of the last
byte is the sign. -/
def makeScriptNum (v : List Nat) (scriptNumLen : Nat) : Option Int :=
  if v.length > scriptNumLen then none
  else if v.length = 0 then some 0
  else
    let result : Int := leValue v
    if 0x80 ≤ v.getLastD 0 then some (-(result - 0x80 * 256 ^ (v.length - 1)))
    else some result

/-- Whether the innermost conditional branch is being executed. -/
def Engine.isBranchExecuting (vm : Engine) : Bool :=
  match vm.condStack with
  | [] => true
  | c :: _ => decide (c = OpCond.condTrue)

/-- Opcodes that are looked at even in a branch that is not executing. -/
def isConditional (op : Nat) : Bool :=
  decide (op = OP_IF) || decide (op = 0x64) || decide (op = OP_ELSE) || decide (op = OP_ENDIF)

/-- The data a push instruction puts on the stack, `none` for other
instructions. -/
def pushValue (pop : ParsedOpcode) : Option (List Nat) :=
  if pop.opcode = OP_0 then some []
  else if pop.opcode ≤ OP_PUSHDATA4 then some pop.data
  else if pop.opcode = OP_1NEGATE then some (scriptNumBytes (-1))
  else if OP_1 ≤ pop.opcode ∧ pop.opcode ≤ OP_16 then
    some (scriptNumBytes ((pop.opcode : Int) - ((OP_1 : Int) - 1)))
  else none

/-- `OP_IF`: in an executing branch pop the condition, otherwise skip. -/
def opcodeIf (vm : Engine) : Option Engine :=
  if vm.isBranchExecuting then
    match vm.dstack with
    | [] => none
    | top :: rest =>
      some { vm with
        dstack := rest
        condStack := (if asBool top then OpCond.condTrue else OpCond.condFalse) :: vm.condStack }
  else some { vm with condStack := OpCond.condSkip :: vm.condStack }

/-- `OP_ELSE`: flip the innermost condition unless it is skipped. -/
def opcodeElse (vm : Engine) : Option Engine :=
  match vm.condStack with
  | [] => none
  | OpCond.condTrue :: cs => some { vm with condStack := OpCond.condFalse :: cs }
  | OpCond.condFalse :: cs => some { vm with condStack := OpCond.condTrue :: cs }
  | OpCond.condSkip :: cs => some { vm with condStack := OpCond.condSkip :: cs }

/-- `OP_ENDIF`: leave the innermost conditional. -/
def opcodeEndif (vm : Engine) : Option Engine :=
  match vm.condStack with
  | [] => none
  | _ :: cs => some { vm with condStack := cs }

/-- `OP_VERIFY`, as the second half of the `...VERIFY` opcodes. -/
def abstractVerify (vm : Engine) : Option Engine :=
  match vm.dstack with
  | [] => none
  | top :: rest => if asBool top then some { vm with dstack := rest } else none

/-- `OP_EQUAL`: pop two items, push whether they are the same bytes. -/
def opcodeEqual (vm : Engine) : Option Engine :=
  match vm.dstack with
  | a :: b :: rest => some { vm with dstack := fromBool (decide (a = b)) :: rest }
  | _ => none

/-- `OP_CHECKSIG`: pop the public key, then the signature; push validity. -/
def opcodeCheckSig (env : Env) (vm : Engine) : Option Engine :=
  match vm.dstack with
  | pkBytes :: fullSigBytes :: rest =>
    some { vm with
      dstack := fromBool (env.checkSig fullSigBytes pkBytes) :: rest
      trace := vm.trace ++ [Event.sigCheck fullSigBytes pkBytes] }
  | _ => none

/-- `OP_NOP2` as `OP_CHECKLOCKTIMEVERIFY`: the top item, left in place, must
be a non-negative number of at most five bytes, of the same kind as the lock
time of the transaction and not after it, and the input must not be final. -/
def opcodeCheckLockTimeVerify (env : Env) (vm : Engine) : Option Engine :=
  match vm.dstack with
  | [] => none
  | so :: _ =>
    match makeScriptNum so 5 with
    | none => none
    | some lockTime =>
      if lockTime < 0 then none
      else if !verifyLockTime env.lockTime LockTimeThreshold lockTime.toNat then none
      else if env.sequence = MaxTxInSequenceNum then none
      else some { vm with trace := vm.trace ++ [Event.lockTimeCheck lockTime] }

/-- `OP_NOP3` as `OP_CHECKSEQUENCEVERIFY`: the top item, left in place, must
be a non-negative number of at most five bytes.  With bit 31 set in it the
instruction does nothing more.  Otherwise the transaction must have version 2
or more, the sequence number of the input must not have bit 31 set, and the
masked operand must be of the same kind as the masked sequence number and not
above it. -/
def opcodeCheckSequenceVerify (env : Env) (vm : Engine) : Option Engine :=
  match vm.dstack with
  | [] => none
  | so :: _ =>
    match makeScriptNum so 5 with
    | none => none
    | some stackSequence =>
      if stackSequence < 0 then none
      else if sequenceLockTimeDisabled stackSequence.toNat then
        some { vm with trace := vm.trace ++ [Event.sequenceCheck stackSequence] }
      else if env.txVersion < 2 then none
      else if sequenceLockTimeDisabled env.sequence then none
      else if !verifyLockTime (sequenceLockTimeMasked env.sequence) (2 ^ 22)
          (sequenceLockTimeMasked stackSequence.toNat) then none
      else some { vm with trace := vm.trace ++ [Event.sequenceCheck stackSequence] }

/-- Execute one instruction; `none` is a script error. -/
def executeOpcode (env : Env) (pop : ParsedOpcode) (vm : Engine) : Option Engine :=
  if !vm.isBranchExecuting && !isConditional pop.opcode then some vm
  else
    match pushValue pop with
    | some d => some { vm with dstack := d :: vm.dstack }
    | none =>
      if pop.opcode = OP_IF then opcodeIf vm
      else if pop.opcode = OP_ELSE then opcodeElse vm
      else if pop.opcode = OP_ENDIF then opcodeEndif vm
      else if pop.opcode = OP_DEPTH then
        some { vm with dstack := scriptNumBytes vm.dstack.length :: vm.dstack }
      else if pop.opcode = OP_DROP then
        match vm.dstack with
        | [] => none
        | _ :: rest => some { vm with dstack := rest }
      else if pop.opcode = OP_DUP then
        match vm.dstack with
        | [] => none
        | top :: rest => some { vm with dstack := top :: top :: rest }
      else if pop.opcode = OP_EQUAL then opcodeEqual vm
      else if pop.opcode = OP_EQUALVERIFY then (opcodeEqual vm).bind abstractVerify
      else if pop.opcode = OP_HASH160 then
        match vm.dstack with
        | [] => none
        | top :: rest => some { vm with dstack := env.hash160 top :: rest }
      else if pop.opcode = OP_CHECKSIG then opcodeCheckSig env vm
      else if pop.opcode = OP_CHECKSIGVERIFY then (opcodeCheckSig env vm).bind abstractVerify
      else if pop.opcode = OP_NOP2 then opcodeCheckLockTimeVerify env vm
      else if pop.opcode = OP_NOP3 then opcodeCheckSequenceVerify env vm
      else none

/-- Execute instructions in order, stopping at the first error. -/
def execute (env : Env) : List ParsedOpcode → Engine → Option Engine
  | [], vm => some vm
  | pop :: pops, vm => (executeOpcode env pop vm).bind (execute env pops)

/-- A finished run succeeds when no conditional is left open and the top of
the stack is true. -/
def Engine.success (vm : Engine) : Bool :=
  vm.condStack.isEmpty &&
    match vm.dstack with
    | [] => false
    | top :: _ => asBool top

/-- Run `script` on the stack made by pushing the items of `witness` in
order (the last item is on top); `none` is a parse or script error. -/
def runEngine (env : Env) (script : List Nat) (witness : List (List Nat)) : Option Engine :=
  (parseScript script).bind fun pops =>
    execute env pops { dstack := witness.reverse, condStack := [], trace := [] }

/-- Whether spending with `witness` satisfies `script`. -/
def runScript (env : Env) (script : List Nat) (witness : List (List Nat)) : Bool :=
  match runEngine env script witness with
  | none => false
  | some vm => vm.success

/-- The checks made by a run that ended without error. -/
def runTrace (env : Env) (script : List Nat) (witness : List (List Nat)) :
    Option (List Event) :=
  (runEngine env script witness).map Engine.trace

/-- The checks made by the instructions that completed before the run
stopped, at its end or at the first error. -/
def traceUntilStop (env : Env) : List ParsedOpcode → Engine → List Event
  | [], vm => vm.trace
  | pop :: pops, vm =>
    match executeOpcode env pop vm with
    | none => vm.trace
    | some vm2 => traceUntilStop env pops vm2

/-- The checks made while running `script` on `witness`, also when the run
fails; `none` when the script does not parse. -/
def runTraceUntilStop (env : Env) (script : List Nat) (witness : List (List Nat)) :
    Option (List Event) :=
  (parseScript script).map fun pops =>
    traceUntilStop env pops { dstack := witness.reverse, condStack := [], trace := [] }

/-- The bytes of the first three instructions of the to-us redeem script:
`OP_HASH160 <revokeHash> OP_EQUAL`. -/
def toUsPrefixBytes (revokeHash : List Nat) : List Nat :=
  OP_HASH160 :: 32 :: (revokeHash ++ [OP_EQUAL])

/-- The instruction `AddInt64 val` is parsed back to. -/
def intInstr (val : Int) : ParsedOpcode :=
  if val = 0 then { opcode := OP_0, data := [] }
  else if val = -1 ∨ (1 ≤ val ∧ val ≤ 16) then
    { opcode := (((OP_1 : Int) - 1 + val) % 256).toNat, data := [] }
  else { opcode := (scriptNumBytes val).length, data := scriptNumBytes val }

/-- The instructions of the to-us redeem script. -/
def toUsOps (ourKey theirKey revokeHash : List Nat) (csvTimeout : Int) : List ParsedOpcode :=
  [{ opcode := OP_HASH160, data := [] }, { opcode := 32, data := revokeHash },
   { opcode := OP_EQUAL, data := [] }, { opcode := OP_IF, data := [] },
   { opcode := 33, data := theirKey }, { opcode := OP_ELSE, data := [] },
   intInstr csvTimeout, { opcode := OP_NOP3, data := [] }, { opcode := OP_DROP, data := [] },
   { opcode := 33, data := ourKey }, { opcode := OP_ENDIF, data := [] },
   { opcode := OP_CHECKSIG, data := [] }]

/-- The instructions of the funding script. -/
def fundingOps (fundingTimeLock : Int) (ourKey theirKey : List Nat) : List ParsedOpcode :=
  [{ opcode := OP_DEPTH, data := [] }, { opcode := 0x52, data := [] },
   { opcode := OP_EQUAL, data := [] }, { opcode := OP_IF, data := [] },
   { opcode := 33, data := ourKey }, { opcode := OP_CHECKSIGVERIFY, data := [] },
   { opcode := OP_ELSE, data := [] }, intInstr fundingTimeLock,
   { opcode := OP_NOP2, data := [] }, { opcode := OP_CHECKSIG, data := [] },
   { opcode := OP_DROP, data := [] }, { opcode := OP_ENDIF, data := [] },
   { opcode := 33, data := theirKey }, { opcode := OP_CHECKSIG, data := [] }]

/-- The sequence instruction passes for operand `c`: `c` is encoded in at
most five bytes and is not negative, and either it has bit 31 set, or the
transaction has version 2 or more, the sequence number of the input has bit 31
clear, and the masked `c` is of the same kind as the masked sequence number
and not above it. -/
def sequenceOk (env : Env) (c : Int) : Bool :=
  decide ((scriptNumBytes c).length ≤ 5) && decide (0 ≤ c) &&
    (sequenceLockTimeDisabled c.toNat ||
      (decide (2 ≤ env.txVersion) && !sequenceLockTimeDisabled env.sequence &&
        verifyLockTime (sequenceLockTimeMasked env.sequence) (2 ^ 22)
          (sequenceLockTimeMasked c.toNat)))

/-- The lock-time instruction passes for operand `c`. -/
def lockTimeOk (env : Env) (c : Int) : Bool :=
  decide ((scriptNumBytes c).length ≤ 5) && decide (0 ≤ c) &&
    verifyLockTime env.lockTime LockTimeThreshold c.toNat &&
    !decide (env.sequence = MaxTxInSequenceNum)

/-- The input that spends the output carries a lock of at least `c` blocks,
which is how a script sees that `c` blocks have elapsed since the output
confirmed: the transaction has version 2 or more, the sequence number of the
input has bit 31 (disabled) and bit 22 (time units) clear, and its low 16 bits
are at least `c`. -/
def relativeLockElapsed (env : Env) (c : Int) : Bool :=
  decide (2 ≤ env.txVersion) && !sequenceLockTimeDisabled env.sequence &&
    decide (env.sequence / 2 ^ 22 % 2 = 0) &&
    decide (c ≤ ((env.sequence % 2 ^ 16 : Nat) : Int))

/-- The to-us redeem script `createCommitTx` builds (`ourRedeemScript`). -/
def toUsRedeemScript (ourKey theirKey : PublicKey) (revokeHash : List Nat) (csvTimeout : Int) :
    List Nat :=
  (scriptToUsBuilder ourKey.SerializeCompressed theirKey.SerializeCompressed revokeHash
    csvTimeout).script

/-- The funding script `createCLTVFundingTx` assembles. -/
def fundingRedeemScript (fundingTimeLock : Int) (ourKey theirKey : PublicKey) : List Nat :=
  (fundingScriptBuilder fundingTimeLock ourKey.SerializeCompressed
    theirKey.SerializeCompressed).script

/-- The values of the outputs a dust threshold would leave, as the
specification words it: an amount below the threshold has no output of its own
and the surviving output carries the sum; otherwise both outputs are present. -/
def specDustPolicyValues (dust amtToUs amtToThem : Int) : List Int :=
  if amtToUs < dust ∧ dust ≤ amtToThem then [amtToUs + amtToThem]
  else if amtToThem < dust ∧ dust ≤ amtToUs then [amtToUs + amtToThem]
  else [amtToUs, amtToThem]

/-- The output values of a built transaction, `none` for an error. -/
def outputValues (r : Except ScriptError MsgTx) : Option (List Int) :=
  match r with
  | Except.ok tx => some (tx.TxOut.map TxOut.Value)
  | Except.error _ => none

/-- Whether a result carries an error. -/
def isError (r : Except ScriptError MsgTx) : Bool :=
  match r with
  | Except.ok _ => false
  | Except.error _ => true

/-! ## Sample inputs -/

/-- A stand-in for `Hash160`: pad or cut to 20 bytes. -/
def sampleHash160 (b : List Nat) : List Nat := (b ++ List.replicate 20 0).take 20

/-- A sample key (the owner): the generator of secp256k1. -/
def sampleOurKey : PublicKey :=
  { X := 0x79BE667EF9DCBBAC55A06295CE870B07029BFCDB2DCE28D959F2815B16F81798
    Y := 0x483ADA7726A3C4655DA4FBFC0E1108A8FD17B448A68554199C47D08FFB10D4B8 }

/-- A sample key (the counterparty): twice the generator. -/
def sampleTheirKey : PublicKey :=
  { X := 0xC6047F9441ED7D6D3045406E95C07CD85C778E4B8CEF3CA7ABAC09B95C709EE5
    Y := 0x1AE168FEA63DC339A3C58419466CEAEEF7F632653266D0E1236431A950CFE52A }

/-- A pair of coordinates that is not a point of the curve. -/
def offCurveKey : PublicKey := { X := 1, Y := 1 }

/-- A sample 32-byte revocation hash. -/
def sampleRevokeHash : List Nat := List.replicate 32 0xab

/-- A sample funding input. -/
def sampleFundingOutput : TxIn :=
  { PreviousOutPoint := { Hash := List.replicate 32 1, Index := 0 },
    SignatureScript := [], Sequence := 0xffffffff }

/-- A sample signature scheme: the signature of a key is the byte 7 followed
by the serialized key. -/
def sampleSig (k : PublicKey) : List Nat := 7 :: k.SerializeCompressed

/-- A sample environment: a version 2 transaction with the given lock time,
whose input has the given sequence number, the age in blocks of the output it
spends. -/
def sampleEnv (height age : Nat) : Env :=
  { hash160 := sampleHash160
    checkSig := fun sig pk => decide (sig = 7 :: pk)
    lockTime := height
    sequence := age
    txVersion := 2 }

/-- A sample commitment transaction. -/
def sampleCommitTx : MsgTx :=
  { Version := 1, TxIn := [sampleFundingOutput],
    TxOut := [{ Value := 600000, PkScript := [] }, { Value := 400000, PkScript := [] }],
    LockTime := 0 }

/-- A sample channel: 10000 to us, 5000 to them, holding `sampleCommitTx`. -/
def sampleChannel : LightningChannel :=
  { wallet := 1, channelEvents := 2, channelNamespace := 3, Id := List.replicate 32 9,
    capacity := 15000, ourTotalFunds := 10000, theirTotalFunds := 5000,
    ourShaChain := 4, theirShaChain := 5, ourFundingKey := 6,
    theirFundingKey := sampleTheirKey, ourCommitKey := sampleOurKey,
    theirCommitKey := sampleTheirKey, fundingTx := some NewMsgTx,
    commitmentTx := some sampleCommitTx, started := 0, shutdown := 0 }

/-! ## Facts about the encodings -/

theorem leBytesAux_eq_digits (fuel n : Nat) (h : n ≤ fuel) :
    leBytesAux fuel n = Nat.digits 256 n := by
  induction fuel generalizing n with
  | zero =>
    have : n = 0 := by omega
    subst this
    simp [leBytesAux]
  | succ k ih =>
    by_cases hn : n = 0
    · subst hn; simp [leBytesAux]
    · have hpos : 0 < n := Nat.pos_of_ne_zero hn
      have hdiv : n / 256 ≤ k := by
        have : n / 256 < n := Nat.div_lt_self hpos (by norm_num)
        omega
      rw [leBytesAux, if_neg hn, ih _ hdiv, Nat.digits_def' (by norm_num) hpos]

theorem leBytes_eq_digits (n : Nat) : leBytes n = Nat.digits 256 n :=
  leBytesAux_eq_digits n n (Nat.le_refl n)

theorem leBytes_length_le (n k : Nat) (h : n < 256 ^ k) : (leBytes n).length ≤ k := by
  rw [leBytes_eq_digits]
  by_cases hn : n = 0
  · subst hn; simp
  · have h1 := Nat.base_pow_length_digits_le 256 n (by norm_num) hn
    have h2 : 256 ^ (Nat.digits 256 n).length < 256 ^ (k + 1) := by
      calc 256 ^ (Nat.digits 256 n).length ≤ 256 * n := h1
        _ < 256 * 256 ^ k := by omega
        _ = 256 ^ (k + 1) := by ring
    have h3 := (Nat.pow_lt_pow_iff_right (by norm_num : 1 < 256)).1 h2
    omega

theorem leBytes_ne_nil (n : Nat) (h : n ≠ 0) : leBytes n ≠ [] := by
  rw [leBytes_eq_digits]
  exact Nat.digits_ne_nil_iff_ne_zero.2 h

theorem leBytes_of_lt (n : Nat) (h0 : n ≠ 0) (h : n < 256) : leBytes n = [n] := by
  rw [leBytes_eq_digits, Nat.digits_def' (by norm_num) (Nat.pos_of_ne_zero h0)]
  have h1 : n / 256 = 0 := Nat.div_eq_of_lt h
  have h2 : n % 256 = n := Nat.mod_eq_of_lt h
  simp [h1, h2]

theorem leBytes_length_ge_two (n : Nat) (h : 256 ≤ n) : 2 ≤ (leBytes n).length := by
  have hpos : 0 < n := by omega
  have hd : 0 < n / 256 := Nat.div_pos h (by norm_num)
  rw [leBytes_eq_digits, Nat.digits_def' (by norm_num) hpos,
    Nat.digits_def' (by norm_num) hd]
  simp

theorem setSignBit_length (l : List Nat) : (setSignBit l).length = l.length := by
  induction l with
  | nil => rfl
  | cons a t ih =>
    cases t with
    | nil => rfl
    | cons b t2 => simp only [setSignBit, List.length_cons] at ih ⊢; omega

theorem scriptNumBytes_def (n : Int) :
    scriptNumBytes n =
      if n = 0 then []
      else if 0x80 ≤ (leBytes n.natAbs).getLastD 0 then
        leBytes n.natAbs ++ [if n < 0 then 0x80 else 0x00]
      else if n < 0 then setSignBit (leBytes n.natAbs)
      else leBytes n.natAbs := by
  unfold scriptNumBytes
  simp only [decide_eq_true_eq]

theorem scriptNumBytes_length_le (v : Int) (h : scriptNumRange v) :
    (scriptNumBytes v).length ≤ 9 := by
  have habs : v.natAbs < 256 ^ 8 := by
    unfold scriptNumRange at h
    omega
  have hl := leBytes_length_le _ _ habs
  rw [scriptNumBytes_def]
  split_ifs <;>
    (try simp only [List.length_append, List.length_singleton, setSignBit_length,
      List.length_nil]) <;> omega

theorem scriptNumBytes_shape (v : Int) (hs : notSmallInt v) :
    1 ≤ (scriptNumBytes v).length ∧
      ((scriptNumBytes v).length = 1 →
        16 < (scriptNumBytes v).headD 0 ∧ (scriptNumBytes v).headD 0 ≠ 0x81) := by
  obtain ⟨h0, h1⟩ := hs
  have hne : v.natAbs ≠ 0 := by omega
  rw [scriptNumBytes_def, if_neg h0]
  by_cases hlt : v.natAbs < 256
  · have hb := leBytes_of_lt _ hne hlt
    rw [hb]
    simp only [List.getLastD_cons, List.getLastD_nil, setSignBit]
    split_ifs <;> simp <;> omega
  · have hb := leBytes_length_ge_two v.natAbs (by omega)
    split_ifs <;>
      (try simp only [List.length_append, List.length_singleton, setSignBit_length]) <;>
      exact ⟨by omega, fun h => by omega⟩

theorem pushBytes_of_length (d : List Nat) (h1 : 1 ≤ d.length) (h2 : d.length < 76)
    (h3 : d.length = 1 → 16 < d.headD 0 ∧ d.headD 0 ≠ 0x81) :
    pushBytes d = d.length :: d := by
  have hmod : (OP_DATA_1 - 1 + d.length) % 256 = d.length := by
    show (1 - 1 + d.length) % 256 = d.length
    omega
  have c1 : ¬ (d.length = 0 ∨ (d.length = 1 ∧ d.headD 0 = 0)) := by
    rintro (h | ⟨h, h'⟩)
    · omega
    · have := (h3 h).1; omega
  have c2 : ¬ (d.length = 1 ∧ d.headD 0 ≤ 16) := by
    rintro ⟨h, h'⟩
    have := (h3 h).1; omega
  have c3 : ¬ (d.length = 1 ∧ d.headD 0 = 0x81) := by
    rintro ⟨h, h'⟩
    exact (h3 h).2 h'
  have c4 : d.length < OP_PUSHDATA1 := h2
  unfold pushBytes
  simp only [if_neg c1, if_neg c2, if_neg c3, if_pos c4, hmod]

theorem canonicalDataSize_le (d : List Nat) : canonicalDataSize d ≤ d.length + 5 := by
  unfold canonicalDataSize
  simp only []
  split_ifs <;> omega

theorem int64Bytes_length_le (v : Int) (h : scriptNumRange v) : (int64Bytes v).length ≤ 10 := by
  unfold int64Bytes
  split_ifs with h0 h1
  · simp
  · simp
  · have hl := scriptNumBytes_length_le v h
    have hs := scriptNumBytes_shape v ⟨h0, h1⟩
    rw [pushBytes_of_length _ hs.1 (by omega) hs.2]
    simp; omega

namespace ScriptBuilder

theorem AddOp_mk (s : List Nat) (op : Nat) (h : s.length < 10000) :
    AddOp { script := s, err := none } op = { script := s ++ [op], err := none } := by
  have : ¬ (s.length + 1 > maxScriptSize) := by simp only [maxScriptSize]; omega
  simp [AddOp, this]

theorem AddData_mk (s d : List Nat) (hd : d.length ≤ 520) (h : s.length + d.length + 5 ≤ 10000) :
    AddData { script := s, err := none } d = { script := s ++ pushBytes d, err := none } := by
  have hc := canonicalDataSize_le d
  have h1 : ¬ (s.length + canonicalDataSize d > maxScriptSize) := by
    simp only [maxScriptSize]; omega
  have h2 : ¬ (d.length > MaxScriptElementSize) := by
    simp only [MaxScriptElementSize]; omega
  simp [AddData, addData, h1, h2]

theorem AddInt64_mk (s : List Nat) (v : Int) (hv : scriptNumRange v)
    (h : s.length + 14 ≤ 10000) :
    AddInt64 { script := s, err := none } v = { script := s ++ int64Bytes v, err := none } := by
  have h1 : ¬ (s.length + 1 > maxScriptSize) := by simp only [maxScriptSize]; omega
  have hl := scriptNumBytes_length_le v hv
  unfold AddInt64 int64Bytes
  simp only [Option.isSome_none, Bool.false_eq_true, if_false, h1]
  split_ifs with h0 h2
  · rfl
  · rfl
  · exact AddData_mk s _ (by omega) (by omega)

end ScriptBuilder

/-! ## Closed forms of the scripts -/

theorem SerializeCompressed_length (p : PublicKey) (h : p.X < 2 ^ 256) :
    p.SerializeCompressed.length = 33 := by
  have hl : (leBytes p.X).length ≤ 32 := leBytes_length_le _ _ (by norm_num; exact h)
  unfold PublicKey.SerializeCompressed paddedAppend bigEndianBytes
  simp only [List.length_append, List.length_replicate, List.length_reverse,
    List.length_singleton]
  omega

/-- The push of a data element of 2 to 75 bytes: its length, then the data. -/
theorem pushBytes_mid (d : List Nat) (h1 : 2 ≤ d.length) (h2 : d.length < 76) :
    pushBytes d = d.length :: d :=
  pushBytes_of_length d (by omega) h2 (fun h => by omega)

theorem P2SHify_eq (hash160 : List Nat → List Nat) (scriptBytes : List Nat)
    (h : (hash160 scriptBytes).length = 20) :
    P2SHify hash160 scriptBytes =
      Except.ok (OP_HASH160 :: 20 :: (hash160 scriptBytes ++ [OP_EQUAL])) := by
  have hp : pushBytes (hash160 scriptBytes) = 20 :: hash160 scriptBytes := by
    rw [pushBytes_mid _ (by omega) (by omega), h]
  unfold P2SHify NewScriptBuilder
  simp only []
  rw [ScriptBuilder.AddOp_mk _ _ (by simp),
    ScriptBuilder.AddData_mk _ _ (by omega) (by simp; omega), hp,
    ScriptBuilder.AddOp_mk _ _ (by simp; omega)]
  simp [ScriptBuilder.Script]

theorem scriptToUsBuilder_eq (ourKey theirKey revokeHash : List Nat) (csvTimeout : Int)
    (ho : ourKey.length = 33) (ht : theirKey.length = 33) (hr : revokeHash.length = 32)
    (hc : scriptNumRange csvTimeout) :
    scriptToUsBuilder ourKey theirKey revokeHash csvTimeout =
      { script := toUsScriptBytes ourKey theirKey revokeHash csvTimeout, err := none } := by
  have hpo : pushBytes ourKey = 33 :: ourKey := by
    rw [pushBytes_mid _ (by omega) (by omega), ho]
  have hpt : pushBytes theirKey = 33 :: theirKey := by
    rw [pushBytes_mid _ (by omega) (by omega), ht]
  have hpr : pushBytes revokeHash = 32 :: revokeHash := by
    rw [pushBytes_mid _ (by omega) (by omega), hr]
  have hi := int64Bytes_length_le csvTimeout hc
  unfold scriptToUsBuilder NewScriptBuilder toUsScriptBytes
  simp only []
  rw [ScriptBuilder.AddOp_mk _ _ (by simp),
    ScriptBuilder.AddData_mk _ _ (by omega) (by simp; omega), hpr,
    ScriptBuilder.AddOp_mk _ _ (by simp; omega),
    ScriptBuilder.AddOp_mk _ _ (by simp; omega),
    ScriptBuilder.AddData_mk _ _ (by omega) (by simp; omega), hpt,
    ScriptBuilder.AddOp_mk _ _ (by simp; omega),
    ScriptBuilder.AddInt64_mk _ _ hc (by simp; omega),
    ScriptBuilder.AddOp_mk _ _ (by simp; omega),
    ScriptBuilder.AddOp_mk _ _ (by simp; omega),
    ScriptBuilder.AddData_mk _ _ (by omega) (by simp; omega), hpo,
    ScriptBuilder.AddOp_mk _ _ (by simp; omega),
    ScriptBuilder.AddOp_mk _ _ (by simp; omega)]
  simp

theorem scriptToThemBuilder_eq (hash160 : List Nat → List Nat) (theirKey : List Nat)
    (h : (hash160 theirKey).length = 20) :
    scriptToThemBuilder hash160 theirKey =
      { script := toThemScriptBytes hash160 theirKey, err := none } := by
  have hp : pushBytes (hash160 theirKey) = 20 :: hash160 theirKey := by
    rw [pushBytes_mid _ (by omega) (by omega), h]
  unfold scriptToThemBuilder NewScriptBuilder toThemScriptBytes
  simp only []
  rw [ScriptBuilder.AddOp_mk _ _ (by simp),
    ScriptBuilder.AddOp_mk _ _ (by simp),
    ScriptBuilder.AddData_mk _ _ (by omega) (by simp; omega), hp,
    ScriptBuilder.AddOp_mk _ _ (by simp; omega),
    ScriptBuilder.AddOp_mk _ _ (by simp; omega)]
  simp

theorem fundingScriptBuilder_eq (fundingTimeLock : Int) (ourKey theirKey : List Nat)
    (ho : ourKey.length = 33) (ht : theirKey.length = 33)
    (hc : scriptNumRange fundingTimeLock) :
    fundingScriptBuilder fundingTimeLock ourKey theirKey =
      { script := fundingScriptBytes fundingTimeLock ourKey theirKey, err := none } := by
  have hpo : pushBytes ourKey = 33 :: ourKey := by
    rw [pushBytes_mid _ (by omega) (by omega), ho]
  have hpt : pushBytes theirKey = 33 :: theirKey := by
    rw [pushBytes_mid _ (by omega) (by omega), ht]
  have hi := int64Bytes_length_le fundingTimeLock hc
  have h2 : int64Bytes 2 = [0x52] := by decide
  unfold fundingScriptBuilder NewScriptBuilder fundingScriptBytes
  simp only []
  rw [ScriptBuilder.AddOp_mk _ _ (by simp),
    ScriptBuilder.AddInt64_mk _ _ (by decide) (by simp), h2,
    ScriptBuilder.AddOp_mk _ _ (by simp),
    ScriptBuilder.AddOp_mk _ _ (by simp),
    ScriptBuilder.AddData_mk _ _ (by omega) (by simp; omega), hpo,
    ScriptBuilder.AddOp_mk _ _ (by simp; omega),
    ScriptBuilder.AddOp_mk _ _ (by simp; omega),
    ScriptBuilder.AddInt64_mk _ _ hc (by simp; omega),
    ScriptBuilder.AddOp_mk _ _ (by simp; omega),
    ScriptBuilder.AddOp_mk _ _ (by simp; omega),
    ScriptBuilder.AddOp_mk _ _ (by simp; omega),
    ScriptBuilder.AddOp_mk _ _ (by simp; omega),
    ScriptBuilder.AddData_mk _ _ (by omega) (by simp; omega), hpt,
    ScriptBuilder.AddOp_mk _ _ (by simp; omega)]
  simp

/-! ## Decoding script numbers -/

theorem leValue_eq_ofDigits (l : List Nat) : leValue l = Nat.ofDigits 256 l := by
  induction l with
  | nil => rfl
  | cons a t ih => simp [leValue, Nat.ofDigits_cons, ih]

theorem leValue_leBytes (n : Nat) : leValue (leBytes n) = n := by
  rw [leValue_eq_ofDigits, leBytes_eq_digits, Nat.ofDigits_digits]

theorem leValue_append_singleton (l : List Nat) (b : Nat) :
    leValue (l ++ [b]) = leValue l + 256 ^ l.length * b := by
  induction l with
  | nil => simp [leValue]
  | cons a t ih =>
    have h : leValue ((a :: t) ++ [b]) = a + 256 * leValue (t ++ [b]) := rfl
    rw [h, ih, List.length_cons, leValue]
    ring

theorem leValue_setSignBit (l : List Nat) (h : l ≠ []) :
    leValue (setSignBit l) = leValue l + 0x80 * 256 ^ (l.length - 1) := by
  induction l with
  | nil => exact absurd rfl h
  | cons a t ih =>
    cases t with
    | nil => simp [setSignBit, leValue]
    | cons b t2 =>
      have ih2 := ih (by simp)
      have h1 : leValue (setSignBit (a :: b :: t2)) = a + 256 * leValue (setSignBit (b :: t2)) :=
        rfl
      have h2 : leValue (a :: b :: t2) = a + 256 * leValue (b :: t2) := rfl
      have h3 : (a :: b :: t2).length - 1 = ((b :: t2).length - 1) + 1 := by simp
      rw [h1, h2, h3, ih2]
      ring

theorem getLastD_setSignBit (l : List Nat) (h : l ≠ []) :
    (setSignBit l).getLastD 0 = l.getLastD 0 + 0x80 := by
  induction l with
  | nil => exact absurd rfl h
  | cons a t ih =>
    cases t with
    | nil => simp [setSignBit]
    | cons b t2 =>
      have ih2 := ih (by simp)
      cases t2 with
      | nil => simp [setSignBit]
      | cons c t3 =>
        simp only [setSignBit, List.getLastD_cons] at ih2 ⊢
        exact ih2

theorem makeScriptNum_of_ne_nil (v : List Nat) (n : Nat) (hlen : v.length ≤ n) (hne : v ≠ []) :
    makeScriptNum v n =
      if 0x80 ≤ v.getLastD 0 then some (-((leValue v : Int) - 0x80 * 256 ^ (v.length - 1)))
      else some (leValue v : Int) := by
  have h0 : ¬ v.length = 0 := fun h => hne (List.length_eq_zero.1 h)
  unfold makeScriptNum
  rw [if_neg (by omega), if_neg h0]

theorem makeScriptNum_scriptNumBytes (c : Int) (n : Nat)
    (h : (scriptNumBytes c).length ≤ n) : makeScriptNum (scriptNumBytes c) n = some c := by
  by_cases h0 : c = 0
  · subst h0
    simp [scriptNumBytes, makeScriptNum]
  · have hne : c.natAbs ≠ 0 := by omega
    have hD : leBytes c.natAbs ≠ [] := leBytes_ne_nil _ hne
    have hv := leValue_leBytes c.natAbs
    rw [scriptNumBytes_def, if_neg h0] at h ⊢
    by_cases hlast : 0x80 ≤ (leBytes c.natAbs).getLastD 0
    · rw [if_pos hlast] at h ⊢
      rw [makeScriptNum_of_ne_nil _ n h (by simp), List.getLastD_concat,
        leValue_append_singleton, hv, List.length_append, List.length_singleton,
        Nat.add_sub_cancel]
      by_cases hneg : c < 0
      · rw [if_pos hneg, if_pos (le_refl _)]
        congr 1
        push_cast
        rw [abs_of_neg hneg]
        ring
      · rw [if_neg hneg, if_neg (by norm_num)]
        congr 1
        push_cast
        rw [abs_of_nonneg (not_lt.1 hneg)]
        ring
    · rw [if_neg hlast] at h ⊢
      by_cases hneg : c < 0
      · rw [if_pos hneg] at h ⊢
        have hS : setSignBit (leBytes c.natAbs) ≠ [] := by
          intro hnil
          have := setSignBit_length (leBytes c.natAbs)
          rw [hnil] at this
          exact hD (List.length_eq_zero.1 this.symm)
        rw [makeScriptNum_of_ne_nil _ n h hS, getLastD_setSignBit _ hD,
          leValue_setSignBit _ hD, hv, setSignBit_length, if_pos (by omega)]
        congr 1
        push_cast
        rw [abs_of_neg hneg]
        ring
      · rw [if_neg hneg] at h ⊢
        rw [makeScriptNum_of_ne_nil _ n h hD, if_neg hlast, hv]
        congr 1
        omega

theorem leBytes_cons (n : Nat) (h : n ≠ 0) : leBytes n = n % 256 :: leBytes (n / 256) := by
  rw [leBytes_eq_digits, leBytes_eq_digits, Nat.digits_def' (by norm_num) (Nat.pos_of_ne_zero h)]

theorem leBytes_shape (k : Nat) : ∀ n : Nat, n ≠ 0 → n < 128 * 256 ^ k →
    (leBytes n).length ≤ k + 1 ∧
      ((leBytes n).length = k + 1 → (leBytes n).getLastD 0 < 128) := by
  induction k with
  | zero =>
    intro n h0 h
    have hn : n < 256 := by omega
    rw [leBytes_of_lt n h0 hn]
    simp
    omega
  | succ k ih =>
    intro n h0 h
    by_cases hn : n < 256
    · rw [leBytes_of_lt n h0 hn]
      simp
    · have hq0 : n / 256 ≠ 0 := by
        have : 0 < n / 256 := Nat.div_pos (by omega) (by norm_num)
        omega
      have hq : n / 256 < 128 * 256 ^ k := by
        have hp : 128 * 256 ^ (k + 1) = (128 * 256 ^ k) * 256 := by ring
        rw [hp] at h
        exact Nat.div_lt_of_lt_mul (by rw [Nat.mul_comm]; exact h)
      obtain ⟨h1, h2⟩ := ih _ hq0 hq
      have hne : leBytes (n / 256) ≠ [] := leBytes_ne_nil _ hq0
      rw [leBytes_cons n h0]
      constructor
      · simp only [List.length_cons]; omega
      · intro hl
        simp only [List.length_cons] at hl
        have h3 := h2 (by omega)
        obtain ⟨a, t, hat⟩ := List.exists_cons_of_ne_nil hne
        rw [hat] at h3 ⊢
        simpa using h3

theorem scriptNumBytes_length_le_five (c : Int) (h0 : 0 ≤ c) (h : c < 2 ^ 39) :
    (scriptNumBytes c).length ≤ 5 := by
  by_cases hz : c = 0
  · subst hz; simp [scriptNumBytes]
  · have hne : c.natAbs ≠ 0 := by omega
    have hlt : c.natAbs < 128 * 256 ^ 4 := by omega
    obtain ⟨h1, h2⟩ := leBytes_shape 4 _ hne hlt
    rw [scriptNumBytes_def, if_neg hz]
    have hneg : ¬ c < 0 := by omega
    by_cases hlast : 0x80 ≤ (leBytes c.natAbs).getLastD 0
    · rw [if_pos hlast, List.length_append, List.length_singleton]
      by_contra hcon
      have := h2 (by omega)
      omega
    · rw [if_neg hlast, if_neg hneg]
      exact h1

/-! ## Parsing the built scripts -/

theorem parseOne_push (n : Nat) (d rest : List Nat) (h1 : 1 ≤ n) (h2 : n ≤ 75)
    (hd : d.length = n) :
    parseOne (n :: (d ++ rest)) = some ({ opcode := n, data := d }, rest) := by
  have hc : OP_DATA_1 ≤ n ∧ n ≤ OP_DATA_75 := ⟨h1, h2⟩
  have hl : ¬ (d ++ rest).length < n := by
    rw [List.length_append]; omega
  rw [parseOne, if_pos hc, if_neg hl, List.take_left' hd, List.drop_left' hd]

theorem parseOne_op (op : Nat) (rest : List Nat) (h : op = 0 ∨ 0x4e < op) :
    parseOne (op :: rest) = some ({ opcode := op, data := [] }, rest) := by
  have c1 : ¬ (OP_DATA_1 ≤ op ∧ op ≤ OP_DATA_75) := by
    simp only [OP_DATA_1, OP_DATA_75]; omega
  have c2 : ¬ op = OP_PUSHDATA1 := by simp only [OP_PUSHDATA1]; omega
  have c3 : ¬ op = OP_PUSHDATA2 := by simp only [OP_PUSHDATA2]; omega
  have c4 : ¬ op = OP_PUSHDATA4 := by simp only [OP_PUSHDATA4]; omega
  rw [parseOne, if_neg c1, if_neg c2, if_neg c3, if_neg c4]

theorem parseOne_int64 (v : Int) (hv : scriptNumRange v) (rest : List Nat) :
    parseOne (int64Bytes v ++ rest) = some (intInstr v, rest) := by
  unfold int64Bytes intInstr
  split_ifs with h0 h1
  · exact parseOne_op _ _ (Or.inl rfl)
  · refine parseOne_op _ _ (Or.inr ?_)
    simp only [OP_1]
    omega
  · have hs := scriptNumBytes_shape v ⟨h0, h1⟩
    have hl := scriptNumBytes_length_le v hv
    rw [pushBytes_of_length _ hs.1 (by omega) hs.2]
    exact parseOne_push _ _ _ hs.1 (by omega) rfl

theorem parseScriptAux_step (fuel : Nat) (s rest : List Nat) (pop : ParsedOpcode)
    (pops : List ParsedOpcode) (h1 : parseOne s = some (pop, rest))
    (h2 : parseScriptAux fuel rest = some pops) :
    parseScriptAux (fuel + 1) s = some (pop :: pops) := by
  cases s with
  | nil => simp [parseOne] at h1
  | cons op t =>
    unfold parseScriptAux
    rw [h1]
    simp [h2]

theorem parseScriptAux_mono (fuel : Nat) : ∀ (s : List Nat) (pops : List ParsedOpcode)
    (fuel2 : Nat), parseScriptAux fuel s = some pops → fuel ≤ fuel2 →
    parseScriptAux fuel2 s = some pops := by
  induction fuel with
  | zero =>
    intro s pops fuel2 h _
    cases s with
    | nil =>
      cases fuel2 <;> simpa [parseScriptAux] using h
    | cons op t => simp [parseScriptAux] at h
  | succ k ih =>
    intro s pops fuel2 h hle
    cases s with
    | nil =>
      cases fuel2 <;> simpa [parseScriptAux] using h
    | cons op t =>
      obtain ⟨m, rfl⟩ : ∃ m, fuel2 = m + 1 := ⟨fuel2 - 1, by omega⟩
      unfold parseScriptAux at h ⊢
      cases hp : parseOne (op :: t) with
      | none => rw [hp] at h; simp at h
      | some pr =>
        obtain ⟨pop, rest2⟩ := pr
        rw [hp] at h
        simp only [Option.map_eq_some'] at h ⊢
        obtain ⟨ops, hops, rfl⟩ := h
        exact ⟨ops, ih _ _ m hops (by omega), rfl⟩

theorem parseScript_toUs (o t r : List Nat) (c : Int) (ho : o.length = 33)
    (ht : t.length = 33) (hr : r.length = 32) (hc : scriptNumRange c) :
    parseScript (toUsScriptBytes o t r c) = some (toUsOps o t r c) := by
  have h12 : parseScriptAux 12 (toUsScriptBytes o t r c) = some (toUsOps o t r c) := by
    unfold toUsScriptBytes toUsOps
    refine parseScriptAux_step _ _ _ _ _ (parseOne_op _ _ (Or.inr (by decide))) ?_
    refine parseScriptAux_step _ _ _ _ _ (parseOne_push 32 r _ (by decide) (by decide) hr) ?_
    refine parseScriptAux_step _ _ _ _ _ (parseOne_op _ _ (Or.inr (by decide))) ?_
    refine parseScriptAux_step _ _ _ _ _ (parseOne_op _ _ (Or.inr (by decide))) ?_
    refine parseScriptAux_step _ _ _ _ _ (parseOne_push 33 t _ (by decide) (by decide) ht) ?_
    refine parseScriptAux_step _ _ _ _ _ (parseOne_op _ _ (Or.inr (by decide))) ?_
    refine parseScriptAux_step _ _ _ _ _ (parseOne_int64 c hc _) ?_
    refine parseScriptAux_step _ _ _ _ _ (parseOne_op _ _ (Or.inr (by decide))) ?_
    refine parseScriptAux_step _ _ _ _ _ (parseOne_op _ _ (Or.inr (by decide))) ?_
    refine parseScriptAux_step _ _ _ _ _ (parseOne_push 33 o _ (by decide) (by decide) ho) ?_
    refine parseScriptAux_step _ _ _ _ _ (parseOne_op _ _ (Or.inr (by decide))) ?_
    refine parseScriptAux_step _ _ _ _ _ (parseOne_op _ _ (Or.inr (by decide))) ?_
    rfl
  refine parseScriptAux_mono 12 _ _ _ h12 ?_
  unfold toUsScriptBytes
  simp only [List.length_cons, List.length_append, ho, ht, hr]
  omega

theorem parseScript_funding (l : Int) (o t : List Nat) (ho : o.length = 33)
    (ht : t.length = 33) (hl : scriptNumRange l) :
    parseScript (fundingScriptBytes l o t) = some (fundingOps l o t) := by
  have h14 : parseScriptAux 14 (fundingScriptBytes l o t) = some (fundingOps l o t) := by
    unfold fundingScriptBytes fundingOps
    refine parseScriptAux_step _ _ _ _ _ (parseOne_op _ _ (Or.inr (by decide))) ?_
    refine parseScriptAux_step _ _ _ _ _ (parseOne_op _ _ (Or.inr (by decide))) ?_
    refine parseScriptAux_step _ _ _ _ _ (parseOne_op _ _ (Or.inr (by decide))) ?_
    refine parseScriptAux_step _ _ _ _ _ (parseOne_op _ _ (Or.inr (by decide))) ?_
    refine parseScriptAux_step _ _ _ _ _ (parseOne_push 33 o _ (by decide) (by decide) ho) ?_
    refine parseScriptAux_step _ _ _ _ _ (parseOne_op _ _ (Or.inr (by decide))) ?_
    refine parseScriptAux_step _ _ _ _ _ (parseOne_op _ _ (Or.inr (by decide))) ?_
    refine parseScriptAux_step _ _ _ _ _ (parseOne_int64 l hl _) ?_
    refine parseScriptAux_step _ _ _ _ _ (parseOne_op _ _ (Or.inr (by decide))) ?_
    refine parseScriptAux_step _ _ _ _ _ (parseOne_op _ _ (Or.inr (by decide))) ?_
    refine parseScriptAux_step _ _ _ _ _ (parseOne_op _ _ (Or.inr (by decide))) ?_
    refine parseScriptAux_step _ _ _ _ _ (parseOne_op _ _ (Or.inr (by decide))) ?_
    refine parseScriptAux_step _ _ _ _ _ (parseOne_push 33 t _ (by decide) (by decide) ht) ?_
    refine parseScriptAux_step _ _ _ _ _ (parseOne_op _ _ (Or.inr (by decide))) ?_
    rfl
  refine parseScriptAux_mono 14 _ _ _ h14 ?_
  unfold fundingScriptBytes
  simp only [List.length_cons, List.length_append, ho, ht]
  omega

/-! ## Executing the built scripts -/

theorem pushValue_intInstr (v : Int) (hv : scriptNumRange v) :
    pushValue (intInstr v) = some (scriptNumBytes v) := by
  unfold intInstr
  split_ifs with h0 h1
  · subst h0; rfl
  · rcases h1 with h1 | ⟨ha, hb⟩
    · subst h1; decide
    · interval_cases v <;> decide
  · have hs := scriptNumBytes_shape v ⟨h0, h1⟩
    have hl := scriptNumBytes_length_le v hv
    have c1 : ¬ (scriptNumBytes v).length = OP_0 := by simp only [OP_0]; omega
    have c2 : (scriptNumBytes v).length ≤ OP_PUSHDATA4 := by simp only [OP_PUSHDATA4]; omega
    unfold pushValue
    simp only [if_neg c1, if_pos c2]

theorem isConditional_intInstr (v : Int) (hv : scriptNumRange v) :
    isConditional (intInstr v).opcode = false := by
  unfold intInstr
  split_ifs with h0 h1
  · rfl
  · rcases h1 with h1 | ⟨ha, hb⟩
    · subst h1; decide
    · interval_cases v <;> decide
  · have hl := scriptNumBytes_length_le v hv
    simp only [isConditional, OP_IF, OP_ELSE, OP_ENDIF, Bool.or_eq_false_iff,
      decide_eq_false_iff_not]
    omega

theorem executeOpcode_intInstr (env : Env) (v : Int) (hv : scriptNumRange v) (vm : Engine) :
    executeOpcode env (intInstr v) vm =
      some (if vm.isBranchExecuting then { vm with dstack := scriptNumBytes v :: vm.dstack }
        else vm) := by
  unfold executeOpcode
  rw [pushValue_intInstr v hv, isConditional_intInstr v hv]
  cases vm.isBranchExecuting <;> simp

theorem makeScriptNum_too_long (v : List Nat) (n : Nat) (h : n < v.length) :
    makeScriptNum v n = none := by
  unfold makeScriptNum
  rw [if_pos h]

theorem opcodeCheckSequenceVerify_num (env : Env) (c : Int) (st : List (List Nat))
    (cs : List OpCond) (tr : List Event) :
    opcodeCheckSequenceVerify env { dstack := scriptNumBytes c :: st, condStack := cs, trace := tr } =
      if sequenceOk env c then
        some { dstack := scriptNumBytes c :: st, condStack := cs,
               trace := tr ++ [Event.sequenceCheck c] }
      else none := by
  unfold opcodeCheckSequenceVerify sequenceOk
  by_cases hl : (scriptNumBytes c).length ≤ 5
  · simp only [makeScriptNum_scriptNumBytes c 5 hl]
    by_cases h0 : c < 0
    · have : ¬ 0 ≤ c := by omega
      simp [h0, this]
    · have h0' : 0 ≤ c := by omega
      by_cases hv : env.txVersion < 2
      · have hv' : ¬ 2 ≤ env.txVersion := by omega
        cases hd : sequenceLockTimeDisabled c.toNat <;> simp [h0, h0', hl, hv, hv']
      · have hv' : 2 ≤ env.txVersion := by omega
        cases hd : sequenceLockTimeDisabled c.toNat <;>
        cases hs : sequenceLockTimeDisabled env.sequence <;>
        cases hvl : verifyLockTime (sequenceLockTimeMasked env.sequence) (2 ^ 22)
          (sequenceLockTimeMasked c.toNat) <;>
        simp [h0, h0', hl, hv, hv']
  · have hn : makeScriptNum (scriptNumBytes c) 5 = none :=
      makeScriptNum_too_long _ 5 (by omega)
    simp [hn, hl]

theorem opcodeCheckLockTimeVerify_num (env : Env) (c : Int) (st : List (List Nat))
    (cs : List OpCond) (tr : List Event) :
    opcodeCheckLockTimeVerify env { dstack := scriptNumBytes c :: st, condStack := cs, trace := tr } =
      if lockTimeOk env c then
        some { dstack := scriptNumBytes c :: st, condStack := cs,
               trace := tr ++ [Event.lockTimeCheck c] }
      else none := by
  unfold opcodeCheckLockTimeVerify lockTimeOk
  by_cases hl : (scriptNumBytes c).length ≤ 5
  · simp only [makeScriptNum_scriptNumBytes c 5 hl]
    by_cases h0 : c < 0
    · have : ¬ 0 ≤ c := by omega
      simp [h0, this]
    · have h0' : 0 ≤ c := by omega
      by_cases hf : env.sequence = MaxTxInSequenceNum <;>
      cases hvl : verifyLockTime env.lockTime LockTimeThreshold c.toNat <;>
      simp [h0, h0', hl, hf]
  · have hn : makeScriptNum (scriptNumBytes c) 5 = none :=
      makeScriptNum_too_long _ 5 (by omega)
    simp [hn, hl]

theorem execute_toUs (env : Env) (o t r : List Nat) (c : Int) (hc : scriptNumRange c)
    (hne : ∀ x, r ≠ env.hash160 x) (x sig : List Nat) (below : List (List Nat)) :
    execute env (toUsOps o t r c) { dstack := x :: sig :: below, condStack := [], trace := [] } =
      if sequenceOk env c then
        some { dstack := fromBool (env.checkSig sig o) :: below, condStack := [],
               trace := [Event.sequenceCheck c, Event.sigCheck sig o] }
      else none := by
  by_cases hs : sequenceOk env c = true <;>
  simp [↓ executeOpcode_intInstr env c hc, toUsOps, execute, executeOpcode, pushValue,
    OP_0, OP_PUSHDATA4, OP_1NEGATE, OP_1, OP_16, OP_IF, OP_ELSE, OP_ENDIF, OP_DEPTH, OP_DROP,
    OP_DUP, OP_EQUAL, OP_EQUALVERIFY, OP_HASH160, OP_CHECKSIG, OP_CHECKSIGVERIFY, OP_NOP2, OP_NOP3,
    isConditional, Engine.isBranchExecuting, opcodeEqual, opcodeIf, opcodeElse, opcodeEndif,
    opcodeCheckSig, opcodeCheckSequenceVerify_num, fromBool, asBool, hne, hs]

theorem execute_toUs_short (env : Env) (o t r : List Nat) (c : Int) (hc : scriptNumRange c)
    (st : List (List Nat)) (hst : st.length ≤ 1) :
    execute env (toUsOps o t r c) { dstack := st, condStack := [], trace := [] } = none := by
  match st, hst with
  | [], _ =>
    simp [toUsOps, execute, executeOpcode, pushValue, isConditional, Engine.isBranchExecuting,
    OP_0, OP_PUSHDATA4, OP_1NEGATE, OP_1, OP_16, OP_IF, OP_ELSE, OP_ENDIF, OP_DEPTH, OP_DROP,
    OP_DUP, OP_EQUAL, OP_EQUALVERIFY, OP_HASH160, OP_CHECKSIG, OP_CHECKSIGVERIFY, OP_NOP2, OP_NOP3]
  | [x], _ =>
    by_cases hs : sequenceOk env c = true <;>
    by_cases he : r = env.hash160 x <;>
    simp [↓ executeOpcode_intInstr env c hc, toUsOps, execute, executeOpcode, pushValue,
    OP_0, OP_PUSHDATA4, OP_1NEGATE, OP_1, OP_16, OP_IF, OP_ELSE, OP_ENDIF, OP_DEPTH, OP_DROP,
    OP_DUP, OP_EQUAL, OP_EQUALVERIFY, OP_HASH160, OP_CHECKSIG, OP_CHECKSIGVERIFY, OP_NOP2, OP_NOP3,
      isConditional, Engine.isBranchExecuting, opcodeEqual, opcodeIf, opcodeElse, opcodeEndif,
      opcodeCheckSig, opcodeCheckSequenceVerify_num, fromBool, asBool, hs, he]

theorem scriptNumBytes_one : scriptNumBytes 1 = [1] := by decide

theorem scriptNumBytes_two : scriptNumBytes 2 = [2] := by decide

theorem execute_funding_two (env : Env) (l : Int) (o t : List Nat) (hl : scriptNumRange l)
    (sigTheirs sigOurs : List Nat) :
    execute env (fundingOps l o t)
        { dstack := [sigOurs, sigTheirs], condStack := [], trace := [] } =
      if env.checkSig sigOurs o then
        some { dstack := [fromBool (env.checkSig sigTheirs t)], condStack := [],
               trace := [Event.sigCheck sigOurs o, Event.sigCheck sigTheirs t] }
      else none := by
  by_cases h1 : env.checkSig sigOurs o = true <;>
  simp [↓ executeOpcode_intInstr env l hl, fundingOps, execute, executeOpcode, pushValue,
    OP_0, OP_PUSHDATA4, OP_1NEGATE, OP_1, OP_16, OP_IF, OP_ELSE, OP_ENDIF, OP_DEPTH, OP_DROP,
    OP_DUP, OP_EQUAL, OP_EQUALVERIFY, OP_HASH160, OP_CHECKSIG, OP_CHECKSIGVERIFY, OP_NOP2, OP_NOP3,
    isConditional, Engine.isBranchExecuting, opcodeEqual, opcodeIf, opcodeElse, opcodeEndif,
    opcodeCheckSig, abstractVerify, fromBool, asBool, scriptNumBytes_two, h1]

theorem execute_funding_one (env : Env) (l : Int) (o t : List Nat) (hl : scriptNumRange l)
    (sig : List Nat) :
    execute env (fundingOps l o t) { dstack := [sig], condStack := [], trace := [] } = none := by
  by_cases h1 : lockTimeOk env l = true <;>
  simp [↓ executeOpcode_intInstr env l hl, fundingOps, execute, executeOpcode, pushValue,
    OP_0, OP_PUSHDATA4, OP_1NEGATE, OP_1, OP_16, OP_IF, OP_ELSE, OP_ENDIF, OP_DEPTH, OP_DROP,
    OP_DUP, OP_EQUAL, OP_EQUALVERIFY, OP_HASH160, OP_CHECKSIG, OP_CHECKSIGVERIFY, OP_NOP2, OP_NOP3,
    isConditional, Engine.isBranchExecuting, opcodeEqual, opcodeIf, opcodeElse, opcodeEndif,
    opcodeCheckSig, abstractVerify, fromBool, asBool, scriptNumBytes_two, scriptNumBytes_one,
    opcodeCheckLockTimeVerify_num, h1]

theorem asBool_fromBool (b : Bool) : asBool (fromBool b) = b := by
  cases b <;> rfl

theorem sampleHash160_length (b : List Nat) : (sampleHash160 b).length = 20 := by
  simp [sampleHash160]

theorem runEngine_toUs (env : Env) (ourKey theirKey : PublicKey) (r : List Nat) (c : Int)
    (ho : ourKey.X < 2 ^ 256) (ht : theirKey.X < 2 ^ 256) (hr : r.length = 32)
    (hc : scriptNumRange c) (hh : ∀ b, (env.hash160 b).length = 20)
    (witness : List (List Nat)) :
    runEngine env
        (scriptToUsBuilder ourKey.SerializeCompressed theirKey.SerializeCompressed r c).script
        witness =
      match witness.reverse with
      | _ :: sig :: below =>
        if sequenceOk env c then
          some { dstack := fromBool (env.checkSig sig ourKey.SerializeCompressed) :: below,
                 condStack := [],
                 trace := [Event.sequenceCheck c,
                   Event.sigCheck sig ourKey.SerializeCompressed] }
        else none
      | _ => none := by
  have hol := SerializeCompressed_length ourKey ho
  have htl := SerializeCompressed_length theirKey ht
  have hne : ∀ x, r ≠ env.hash160 x := by
    intro x h
    have := congrArg List.length h
    rw [hr, hh x] at this
    omega
  rw [scriptToUsBuilder_eq _ _ _ _ hol htl hr hc]
  unfold runEngine
  rw [parseScript_toUs _ _ _ _ hol htl hr hc, Option.some_bind]
  rcases hw : witness.reverse with _ | ⟨x, _ | ⟨sig, below⟩⟩
  · exact execute_toUs_short env _ _ _ _ hc [] (by simp)
  · exact execute_toUs_short env _ _ _ _ hc [x] (by simp)
  · exact execute_toUs env _ _ _ _ hc hne x sig below

theorem runEngine_funding_two (env : Env) (l : Int) (ourKey theirKey : PublicKey)
    (ho : ourKey.X < 2 ^ 256) (ht : theirKey.X < 2 ^ 256) (hl : scriptNumRange l)
    (sigTheirs sigOurs : List Nat) :
    runEngine env
        (fundingScriptBuilder l ourKey.SerializeCompressed theirKey.SerializeCompressed).script
        [sigTheirs, sigOurs] =
      if env.checkSig sigOurs ourKey.SerializeCompressed then
        some { dstack := [fromBool (env.checkSig sigTheirs theirKey.SerializeCompressed)],
               condStack := [],
               trace := [Event.sigCheck sigOurs ourKey.SerializeCompressed,
                 Event.sigCheck sigTheirs theirKey.SerializeCompressed] }
      else none := by
  have hol := SerializeCompressed_length ourKey ho
  have htl := SerializeCompressed_length theirKey ht
  rw [fundingScriptBuilder_eq _ _ _ hol htl hl]
  unfold runEngine
  rw [parseScript_funding _ _ _ hol htl hl, Option.some_bind]
  exact execute_funding_two env l _ _ hl sigTheirs sigOurs

theorem runEngine_funding_one (env : Env) (l : Int) (ourKey theirKey : PublicKey)
    (ho : ourKey.X < 2 ^ 256) (ht : theirKey.X < 2 ^ 256) (hl : scriptNumRange l)
    (sig : List Nat) :
    runEngine env
        (fundingScriptBuilder l ourKey.SerializeCompressed theirKey.SerializeCompressed).script
        [sig] = none := by
  have hol := SerializeCompressed_length ourKey ho
  have htl := SerializeCompressed_length theirKey ht
  rw [fundingScriptBuilder_eq _ _ _ hol htl hl]
  unfold runEngine
  rw [parseScript_funding _ _ _ hol htl hl, Option.some_bind]
  exact execute_funding_one env l _ _ hl sig

theorem createCommitTx_eq (hash160 : List Nat → List Nat) (hh : ∀ b, (hash160 b).length = 20)
    (fundingOutput : TxIn) (ourKey theirKey : PublicKey) (ho : ourKey.X < 2 ^ 256)
    (ht : theirKey.X < 2 ^ 256) (revokeHash : List Nat) (hr : revokeHash.length = 32)
    (csvTimeout : Int) (hc : scriptNumRange csvTimeout) (amtToUs amtToThem : Int) :
    createCommitTx hash160 fundingOutput ourKey theirKey revokeHash csvTimeout amtToUs amtToThem =
      Except.ok
        { Version := 1
          TxIn := [fundingOutput]
          TxOut :=
            [{ Value := amtToUs,
               PkScript := OP_HASH160 :: 20 ::
                 (hash160 (toUsScriptBytes ourKey.SerializeCompressed
                    theirKey.SerializeCompressed revokeHash csvTimeout) ++ [OP_EQUAL]) },
             { Value := amtToThem,
               PkScript := OP_HASH160 :: 20 ::
                 (hash160 (toThemScriptBytes hash160 theirKey.SerializeCompressed) ++
                    [OP_EQUAL]) }]
          LockTime := 0 } := by
  have hol := SerializeCompressed_length ourKey ho
  have htl := SerializeCompressed_length theirKey ht
  unfold createCommitTx
  rw [scriptToUsBuilder_eq _ _ _ _ hol htl hr hc, scriptToThemBuilder_eq _ _ (hh _)]
  simp [ScriptBuilder.Script, P2SHify_eq _ _ (hh _), NewMsgTx, MsgTx.AddTxIn, MsgTx.AddTxOut,
    NewTxOut, bind, Except.bind, pure, Except.pure]

theorem runScript_toUs_pair (env : Env) (ourKey theirKey : PublicKey) (r : List Nat) (c : Int)
    (ho : ourKey.X < 2 ^ 256) (ht : theirKey.X < 2 ^ 256) (hr : r.length = 32)
    (hc : scriptNumRange c) (hh : ∀ b, (env.hash160 b).length = 20) (sig v : List Nat) :
    runScript env (toUsRedeemScript ourKey theirKey r c) [sig, v] =
      (sequenceOk env c && env.checkSig sig ourKey.SerializeCompressed) := by
  have h := runEngine_toUs env ourKey theirKey r c ho ht hr hc hh [sig, v]
  unfold runScript toUsRedeemScript
  rw [h]
  by_cases hs : sequenceOk env c = true
  · simp [hs, Engine.success, asBool_fromBool]
  · simp [hs]

theorem runScript_toUs_single (env : Env) (ourKey theirKey : PublicKey) (r : List Nat) (c : Int)
    (ho : ourKey.X < 2 ^ 256) (ht : theirKey.X < 2 ^ 256) (hr : r.length = 32)
    (hc : scriptNumRange c) (hh : ∀ b, (env.hash160 b).length = 20) (sig : List Nat) :
    runScript env (toUsRedeemScript ourKey theirKey r c) [sig] = false := by
  have h := runEngine_toUs env ourKey theirKey r c ho ht hr hc hh [sig]
  unfold runScript toUsRedeemScript
  rw [h]
  simp

theorem runTrace_toUs_of_success (env : Env) (ourKey theirKey : PublicKey) (r : List Nat)
    (c : Int) (ho : ourKey.X < 2 ^ 256) (ht : theirKey.X < 2 ^ 256) (hr : r.length = 32)
    (hc : scriptNumRange c) (hh : ∀ b, (env.hash160 b).length = 20)
    (witness : List (List Nat))
    (hrun : runScript env (toUsRedeemScript ourKey theirKey r c) witness = true) :
    ∃ sig, runTrace env (toUsRedeemScript ourKey theirKey r c) witness =
        some [Event.sequenceCheck c, Event.sigCheck sig ourKey.SerializeCompressed] ∧
      env.checkSig sig ourKey.SerializeCompressed = true ∧ sequenceOk env c = true := by
  have h := runEngine_toUs env ourKey theirKey r c ho ht hr hc hh witness
  unfold runScript runTrace toUsRedeemScript at *
  rw [h] at hrun ⊢
  rcases hw : witness.reverse with _ | ⟨x, _ | ⟨sig, below⟩⟩
  · rw [hw] at hrun; simp at hrun
  · rw [hw] at hrun; simp at hrun
  · rw [hw] at hrun
    by_cases hs : sequenceOk env c = true
    · simp only [hs, if_true, Engine.success, asBool_fromBool, List.isEmpty_nil,
        Bool.true_and] at hrun
      exact ⟨sig, by simp [hs], hrun, hs⟩
    · simp [hs] at hrun

theorem sequenceOk_of_blocks (env : Env) (c : Int) (h0 : 0 ≤ c) (h1 : c ≤ 65535) :
    sequenceOk env c = relativeLockElapsed env c := by
  have hl := scriptNumBytes_length_le_five c h0 (by omega)
  have hd : sequenceLockTimeDisabled c.toNat = false := by
    unfold sequenceLockTimeDisabled
    norm_num
    omega
  have hm : sequenceLockTimeMasked c.toNat = c.toNat := by
    unfold sequenceLockTimeMasked
    norm_num
    omega
  unfold sequenceOk relativeLockElapsed
  rw [hd, hm]
  unfold verifyLockTime sequenceLockTimeMasked
  rw [Bool.eq_iff_iff]
  simp only [hl, h0, decide_True, Bool.true_and, Bool.false_or, Bool.and_eq_true,
    Bool.or_eq_true, decide_eq_true_eq, Bool.not_eq_true', decide_eq_false_iff_not]
  norm_num
  constructor
  · rintro ⟨⟨hv, hs⟩, hk, hle⟩
    exact ⟨⟨⟨hv, hs⟩, by omega⟩, by omega⟩
  · rintro ⟨⟨⟨hv, hs⟩, hb⟩, hle⟩
    exact ⟨⟨hv, hs⟩, by omega, by omega⟩

/-! ## Facts about the sample inputs -/

theorem sampleOurKey_fits : sampleOurKey.X < 2 ^ 256 := by decide

theorem sampleTheirKey_fits : sampleTheirKey.X < 2 ^ 256 := by decide

theorem offCurveKey_fits : offCurveKey.X < 2 ^ 256 := by decide

theorem sampleRevokeHash_length : sampleRevokeHash.length = 32 := by decide

theorem scriptNumRange_144 : scriptNumRange 144 := by decide

theorem scriptNumRange_100 : scriptNumRange 100 := by decide

theorem sampleEnv_hash160_length (height age : Nat) (b : List Nat) :
    ((sampleEnv height age).hash160 b).length = 20 :=
  sampleHash160_length b

theorem sampleEnv_checkSig_self (height age : Nat) (k : PublicKey) :
    (sampleEnv height age).checkSig (sampleSig k) k.SerializeCompressed = true := by
  simp [sampleEnv, sampleSig]

theorem sampleEnv_checkSig_their_our (height age : Nat) :
    (sampleEnv height age).checkSig (sampleSig sampleTheirKey)
      sampleOurKey.SerializeCompressed = false := by
  have h : sampleTheirKey.SerializeCompressed ≠ sampleOurKey.SerializeCompressed := by decide
  simp [sampleEnv, sampleSig, h]

/-! ## The revocation test of the to-us script -/

theorem parseScript_toUsPrefix (r : List Nat) (hr : r.length = 32) :
    parseScript (toUsPrefixBytes r) =
      some [{ opcode := OP_HASH160, data := [] }, { opcode := 32, data := r },
        { opcode := OP_EQUAL, data := [] }] := by
  have h3 : parseScriptAux 3 (toUsPrefixBytes r) =
      some [{ opcode := OP_HASH160, data := [] }, { opcode := 32, data := r },
        { opcode := OP_EQUAL, data := [] }] := by
    unfold toUsPrefixBytes
    refine parseScriptAux_step _ _ _ _ _ (parseOne_op _ _ (Or.inr (by decide))) ?_
    refine parseScriptAux_step _ _ _ _ _ (parseOne_push 32 r _ (by decide) (by decide) hr) ?_
    refine parseScriptAux_step _ _ _ _ _ (parseOne_op _ _ (Or.inr (by decide))) ?_
    rfl
  refine parseScriptAux_mono 3 _ _ _ h3 ?_
  unfold toUsPrefixBytes
  simp only [List.length_cons, List.length_append, hr]
  omega

theorem parseScript_toUsPrefix_if (r : List Nat) (hr : r.length = 32) :
    parseScript (toUsPrefixBytes r ++ [OP_IF]) =
      some [{ opcode := OP_HASH160, data := [] }, { opcode := 32, data := r },
        { opcode := OP_EQUAL, data := [] }, { opcode := OP_IF, data := [] }] := by
  have h4 : parseScriptAux 4 (toUsPrefixBytes r ++ [OP_IF]) =
      some [{ opcode := OP_HASH160, data := [] }, { opcode := 32, data := r },
        { opcode := OP_EQUAL, data := [] }, { opcode := OP_IF, data := [] }] := by
    have hb : toUsPrefixBytes r ++ [OP_IF] = OP_HASH160 :: 32 :: (r ++ [OP_EQUAL, OP_IF]) := by
      simp [toUsPrefixBytes]
    rw [hb]
    refine parseScriptAux_step _ _ _ _ _ (parseOne_op _ _ (Or.inr (by decide))) ?_
    refine parseScriptAux_step _ _ _ _ _ (parseOne_push 32 r _ (by decide) (by decide) hr) ?_
    refine parseScriptAux_step _ _ _ _ _ (parseOne_op _ _ (Or.inr (by decide))) ?_
    refine parseScriptAux_step _ _ _ _ _ (parseOne_op _ _ (Or.inr (by decide))) ?_
    rfl
  refine parseScriptAux_mono 4 _ _ _ h4 ?_
  unfold toUsPrefixBytes
  simp only [List.length_cons, List.length_append, hr]
  omega

theorem toUsScriptBytes_split (o t r : List Nat) (c : Int) :
    toUsScriptBytes o t r c =
      toUsPrefixBytes r ++ OP_IF :: 33 :: (t ++ OP_ELSE ::
        (int64Bytes c ++ OP_NOP3 :: OP_DROP :: 33 :: (o ++ [OP_ENDIF, OP_CHECKSIG]))) := by
  simp [toUsScriptBytes, toUsPrefixBytes]

theorem traceUntilStop_toUs (env : Env) (o t r : List Nat) (c : Int) (hc : scriptNumRange c)
    (hne : ∀ x, r ≠ env.hash160 x) (st : List (List Nat)) :
    ∀ e ∈ traceUntilStop env (toUsOps o t r c) { dstack := st, condStack := [], trace := [] },
      e = Event.sequenceCheck c ∨ ∃ sig, e = Event.sigCheck sig o := by
  rcases st with _ | ⟨x, _ | ⟨sig, below⟩⟩
  · simp [toUsOps, traceUntilStop, executeOpcode, pushValue,
      OP_0, OP_PUSHDATA4, OP_1NEGATE, OP_1, OP_16, OP_IF, OP_ELSE, OP_ENDIF, OP_DEPTH, OP_DROP,
      OP_DUP, OP_EQUAL, OP_EQUALVERIFY, OP_HASH160, OP_CHECKSIG, OP_CHECKSIGVERIFY, OP_NOP2,
      OP_NOP3, isConditional, Engine.isBranchExecuting]
  · by_cases hs : sequenceOk env c = true <;>
    simp [↓ executeOpcode_intInstr env c hc, toUsOps, traceUntilStop, executeOpcode, pushValue,
      OP_0, OP_PUSHDATA4, OP_1NEGATE, OP_1, OP_16, OP_IF, OP_ELSE, OP_ENDIF, OP_DEPTH, OP_DROP,
      OP_DUP, OP_EQUAL, OP_EQUALVERIFY, OP_HASH160, OP_CHECKSIG, OP_CHECKSIGVERIFY, OP_NOP2,
      OP_NOP3, isConditional, Engine.isBranchExecuting, opcodeEqual, opcodeIf, opcodeElse,
      opcodeEndif, opcodeCheckSig, opcodeCheckSequenceVerify_num, fromBool, asBool, hne, hs]
  · by_cases hs : sequenceOk env c = true <;>
    simp [↓ executeOpcode_intInstr env c hc, toUsOps, traceUntilStop, executeOpcode, pushValue,
      OP_0, OP_PUSHDATA4, OP_1NEGATE, OP_1, OP_16, OP_IF, OP_ELSE, OP_ENDIF, OP_DEPTH, OP_DROP,
      OP_DUP, OP_EQUAL, OP_EQUALVERIFY, OP_HASH160, OP_CHECKSIG, OP_CHECKSIGVERIFY, OP_NOP2,
      OP_NOP3, isConditional, Engine.isBranchExecuting, opcodeEqual, opcodeIf, opcodeElse,
      opcodeEndif, opcodeCheckSig, opcodeCheckSequenceVerify_num, fromBool, asBool, hne, hs]

theorem execute_toUsPrefix (env : Env) (r : List Nat) (hne : ∀ x, r ≠ env.hash160 x)
    (v : List Nat) (below : List (List Nat)) :
    execute env
        [{ opcode := OP_HASH160, data := [] }, { opcode := 32, data := r },
          { opcode := OP_EQUAL, data := [] }]
        { dstack := v :: below, condStack := [], trace := [] } =
      some { dstack := fromBool false :: below, condStack := [], trace := [] } := by
  simp [execute, executeOpcode, pushValue,
    OP_0, OP_PUSHDATA4, OP_1NEGATE, OP_1, OP_16, OP_IF, OP_ELSE, OP_ENDIF, OP_DEPTH, OP_DROP,
    OP_DUP, OP_EQUAL, OP_EQUALVERIFY, OP_HASH160, OP_CHECKSIG, OP_CHECKSIGVERIFY, OP_NOP2,
    OP_NOP3, isConditional, Engine.isBranchExecuting, opcodeEqual, fromBool, hne]

theorem execute_toUsPrefix_if (env : Env) (r : List Nat) (hne : ∀ x, r ≠ env.hash160 x)
    (v : List Nat) (below : List (List Nat)) :
    execute env
        [{ opcode := OP_HASH160, data := [] }, { opcode := 32, data := r },
          { opcode := OP_EQUAL, data := [] }, { opcode := OP_IF, data := [] }]
        { dstack := v :: below, condStack := [], trace := [] } =
      some { dstack := below, condStack := [OpCond.condFalse], trace := [] } := by
  simp [execute, executeOpcode, pushValue,
    OP_0, OP_PUSHDATA4, OP_1NEGATE, OP_1, OP_16, OP_IF, OP_ELSE, OP_ENDIF, OP_DEPTH, OP_DROP,
    OP_DUP, OP_EQUAL, OP_EQUALVERIFY, OP_HASH160, OP_CHECKSIG, OP_CHECKSIGVERIFY, OP_NOP2,
    OP_NOP3, isConditional, Engine.isBranchExecuting, opcodeEqual, opcodeIf, fromBool, asBool,
    hne]

theorem scriptNumBytes_injective (c c2 : Int) (h : scriptNumBytes c = scriptNumBytes c2) :
    c = c2 := by
  have a1 := makeScriptNum_scriptNumBytes c (scriptNumBytes c).length (le_refl _)
  have a2 := makeScriptNum_scriptNumBytes c2 (scriptNumBytes c2).length (le_refl _)
  rw [h, a2] at a1
  exact (Option.some.inj a1).symm

theorem intInstr_injective (c c2 : Int) (hc : scriptNumRange c) (hc2 : scriptNumRange c2)
    (h : intInstr c = intInstr c2) : c = c2 := by
  have hp := congrArg pushValue h
  rw [pushValue_intInstr c hc, pushValue_intInstr c2 hc2] at hp
  exact scriptNumBytes_injective c c2 (Option.some.inj hp)

/-! ## The owner's path of the to-us script -/

theorem execute_toUs_of_ne (env : Env) (o t r : List Nat) (c : Int) (hc : scriptNumRange c)
    (x sig : List Nat) (below : List (List Nat)) (hx : env.hash160 x ≠ r) :
    execute env (toUsOps o t r c) { dstack := x :: sig :: below, condStack := [], trace := [] } =
      if sequenceOk env c then
        some { dstack := fromBool (env.checkSig sig o) :: below, condStack := [],
               trace := [Event.sequenceCheck c, Event.sigCheck sig o] }
      else none := by
  have hx2 : r ≠ env.hash160 x := fun h => hx h.symm
  by_cases hs : sequenceOk env c = true <;>
  simp [↓ executeOpcode_intInstr env c hc, toUsOps, execute, executeOpcode, pushValue,
    OP_0, OP_PUSHDATA4, OP_1NEGATE, OP_1, OP_16, OP_IF, OP_ELSE, OP_ENDIF, OP_DEPTH, OP_DROP,
    OP_DUP, OP_EQUAL, OP_EQUALVERIFY, OP_HASH160, OP_CHECKSIG, OP_CHECKSIGVERIFY, OP_NOP2,
    OP_NOP3, isConditional, Engine.isBranchExecuting, opcodeEqual, opcodeIf, opcodeElse,
    opcodeEndif, opcodeCheckSig, opcodeCheckSequenceVerify_num, fromBool, asBool, hx2, hs]

theorem runEngine_toUs_stack (env : Env) (ourKey theirKey : PublicKey) (r : List Nat)
    (c : Int) (ho : ourKey.X < 2 ^ 256) (ht : theirKey.X < 2 ^ 256) (hr : r.length = 32)
    (hc : scriptNumRange c) (witness : List (List Nat)) :
    runEngine env (toUsRedeemScript ourKey theirKey r c) witness =
      execute env (toUsOps ourKey.SerializeCompressed theirKey.SerializeCompressed r c)
        { dstack := witness.reverse, condStack := [], trace := [] } := by
  have hol := SerializeCompressed_length ourKey ho
  have htl := SerializeCompressed_length theirKey ht
  unfold toUsRedeemScript
  rw [scriptToUsBuilder_eq _ _ _ _ hol htl hr hc]
  unfold runEngine
  rw [parseScript_toUs _ _ _ _ hol htl hr hc, Option.some_bind]

/-- The sequence instruction at four operands: `2^31` has the disable flag
and passes on an input of sequence 0; `65680 = 0x10090` is compared through
its low 16 bits, 144, and passes on an input of sequence 1000; the block
count 144 fails on an input of sequence 143 and passes on one of 144. -/
theorem sequenceOk_examples :
    sequenceOk (sampleEnv 0 0) (2 ^ 31) = true ∧ sequenceOk (sampleEnv 0 1000) 65680 = true ∧
      sequenceOk (sampleEnv 0 143) 144 = false ∧ sequenceOk (sampleEnv 0 144) 144 = true := by
  decide

/-! ## The claims -/

/-- C1: for every funding input, every pair of keys with 256-bit coordinates,
every 32-byte revocation hash, every time-out `scriptNum` encodes and all
amounts (zero, equal, or `amtToUs < amtToThem` included), `createCommitTx`
returns no error and a transaction whose only input is `fundingOutput` and
whose outputs are exactly two, in this order: `amtToUs` locked by `P2SHify` of
the to-us redeem script, then `amtToThem` locked by `P2SHify` of the to-them
redeem script. -/
theorem createCommitTx_two_outputs_fixed_order (hash160 : List Nat → List Nat)
    (hh : ∀ b, (hash160 b).length = 20) (fundingOutput : TxIn) (ourKey theirKey : PublicKey)
    (ho : ourKey.X < 2 ^ 256) (ht : theirKey.X < 2 ^ 256) (revokeHash : List Nat)
    (hr : revokeHash.length = 32) (csvTimeout : Int) (hc : scriptNumRange csvTimeout)
    (amtToUs amtToThem : Int) :
    ∃ ourRedeemScript theirRedeemScript payToUsScriptHash payToThemScriptHash,
      (scriptToUsBuilder ourKey.SerializeCompressed theirKey.SerializeCompressed revokeHash
          csvTimeout).Script = Except.ok ourRedeemScript ∧
      (scriptToThemBuilder hash160 theirKey.SerializeCompressed).Script =
          Except.ok theirRedeemScript ∧
      P2SHify hash160 ourRedeemScript = Except.ok payToUsScriptHash ∧
      P2SHify hash160 theirRedeemScript = Except.ok payToThemScriptHash ∧
      createCommitTx hash160 fundingOutput ourKey theirKey revokeHash csvTimeout amtToUs
          amtToThem =
        Except.ok
          { Version := 1
            TxIn := [fundingOutput]
            TxOut := [{ Value := amtToUs, PkScript := payToUsScriptHash },
                      { Value := amtToThem, PkScript := payToThemScriptHash }]
            LockTime := 0 } := by
  have hol := SerializeCompressed_length ourKey ho
  have htl := SerializeCompressed_length theirKey ht
  refine ⟨_, _, _, _, ?_, ?_, P2SHify_eq hash160 _ (hh _), P2SHify_eq hash160 _ (hh _),
    createCommitTx_eq hash160 hh fundingOutput ourKey theirKey ho ht revokeHash hr csvTimeout hc
      amtToUs amtToThem⟩
  · rw [scriptToUsBuilder_eq _ _ _ _ hol htl hr hc]; rfl
  · rw [scriptToThemBuilder_eq _ _ (hh _)]; rfl

/-- Witness of C1 at the sample inputs, with `amtToUs = 0 < amtToThem`. -/
theorem createCommitTx_two_outputs_fixed_order_witness :
    ∃ ourRedeemScript theirRedeemScript payToUsScriptHash payToThemScriptHash,
      (scriptToUsBuilder sampleOurKey.SerializeCompressed sampleTheirKey.SerializeCompressed
          sampleRevokeHash 144).Script = Except.ok ourRedeemScript ∧
      (scriptToThemBuilder sampleHash160 sampleTheirKey.SerializeCompressed).Script =
          Except.ok theirRedeemScript ∧
      P2SHify sampleHash160 ourRedeemScript = Except.ok payToUsScriptHash ∧
      P2SHify sampleHash160 theirRedeemScript = Except.ok payToThemScriptHash ∧
      createCommitTx sampleHash160 sampleFundingOutput sampleOurKey sampleTheirKey
          sampleRevokeHash 144 0 1000 =
        Except.ok
          { Version := 1
            TxIn := [sampleFundingOutput]
            TxOut := [{ Value := 0, PkScript := payToUsScriptHash },
                      { Value := 1000, PkScript := payToThemScriptHash }]
            LockTime := 0 } :=
  createCommitTx_two_outputs_fixed_order sampleHash160 sampleHash160_length sampleFundingOutput
    sampleOurKey sampleTheirKey sampleOurKey_fits sampleTheirKey_fits sampleRevokeHash
    sampleRevokeHash_length 144 scriptNumRange_144 0 1000

/-- C2 (the code falls short of it): on a witness of a signature and any
value `v`, the to-us redeem script fails unless the signature is valid under
the owner's key; so a signature valid under the counterparty's key alone
fails, whatever `v` is and however old the output, because the 20-byte result
of `OP_HASH160` never equals the 32-byte `revokeHash`. -/
theorem toUs_counterparty_signature_fails (env : Env) (ourKey theirKey : PublicKey)
    (revokeHash : List Nat) (csvTimeout : Int) (ho : ourKey.X < 2 ^ 256)
    (ht : theirKey.X < 2 ^ 256) (hr : revokeHash.length = 32) (hc : scriptNumRange csvTimeout)
    (hh : ∀ b, (env.hash160 b).length = 20) (sig v : List Nat)
    (hnot : env.checkSig sig ourKey.SerializeCompressed = false) :
    runScript env (toUsRedeemScript ourKey theirKey revokeHash csvTimeout) [sig, v] = false := by
  rw [runScript_toUs_pair env ourKey theirKey revokeHash csvTimeout ho ht hr hc hh sig v, hnot]
  simp

/-- Witness of C2's theorem: the counterparty's signature, valid under the
counterparty's key, with a value, on an output 1000 blocks old. -/
theorem toUs_counterparty_signature_fails_witness :
    (sampleEnv 0 1000).checkSig (sampleSig sampleTheirKey)
        sampleTheirKey.SerializeCompressed = true ∧
      runScript (sampleEnv 0 1000)
        (toUsRedeemScript sampleOurKey sampleTheirKey sampleRevokeHash 144)
        [sampleSig sampleTheirKey, [1, 2, 3]] = false :=
  ⟨sampleEnv_checkSig_self 0 1000 sampleTheirKey,
    toUs_counterparty_signature_fails (sampleEnv 0 1000) sampleOurKey sampleTheirKey
      sampleRevokeHash 144 sampleOurKey_fits sampleTheirKey_fits sampleRevokeHash_length
      scriptNumRange_144 (sampleEnv_hash160_length 0 1000) (sampleSig sampleTheirKey) [1, 2, 3]
      (sampleEnv_checkSig_their_our 0 1000)⟩

/-- C3 as stated fails: a witness carrying only the owner's signature does
not succeed although the time-out has elapsed (the output is 1000 blocks old,
the time-out is 144), because `OP_HASH160` consumes the signature. -/
theorem toUs_signature_alone_fails :
    (sampleEnv 0 1000).checkSig (sampleSig sampleOurKey)
        sampleOurKey.SerializeCompressed = true ∧
      (144 : Int) ≤ ((sampleEnv 0 1000).sequence : Int) ∧
      runScript (sampleEnv 0 1000)
        (toUsRedeemScript sampleOurKey sampleTheirKey sampleRevokeHash 144)
        [sampleSig sampleOurKey] = false :=
  ⟨sampleEnv_checkSig_self 0 1000 sampleOurKey, by decide,
    runScript_toUs_single (sampleEnv 0 1000) sampleOurKey sampleTheirKey sampleRevokeHash 144
      sampleOurKey_fits sampleTheirKey_fits sampleRevokeHash_length scriptNumRange_144
      (sampleEnv_hash160_length 0 1000) (sampleSig sampleOurKey)⟩

/-- C3, amended: every successful execution of the to-us redeem script in
which the value on top of the stack does not hash to `revokeHash` checks the
relative time-out `csvTimeout` and then the signature against the owner's
key, and nothing else; for a time-out that is a block count,
`0 ≤ csvTimeout ≤ 65535`, a witness of a signature followed by one more item
that does not hash to `revokeHash` succeeds exactly when `csvTimeout` blocks
have elapsed, as the sequence number of the spending input tells it, and the
signature is the owner's; a witness of the signature alone never succeeds. -/
theorem toUs_owner_path (env : Env) (ourKey theirKey : PublicKey) (revokeHash : List Nat)
    (csvTimeout : Int) (ho : ourKey.X < 2 ^ 256) (ht : theirKey.X < 2 ^ 256)
    (hr : revokeHash.length = 32) (hc : scriptNumRange csvTimeout) :
    (∀ witness v, witness.getLast? = some v → env.hash160 v ≠ revokeHash →
        runScript env (toUsRedeemScript ourKey theirKey revokeHash csvTimeout) witness = true →
        ∃ sig,
          runTrace env (toUsRedeemScript ourKey theirKey revokeHash csvTimeout) witness =
            some [Event.sequenceCheck csvTimeout,
              Event.sigCheck sig ourKey.SerializeCompressed] ∧
          env.checkSig sig ourKey.SerializeCompressed = true) ∧
      (∀ sig v, env.hash160 v ≠ revokeHash → 0 ≤ csvTimeout → csvTimeout ≤ 65535 →
        runScript env (toUsRedeemScript ourKey theirKey revokeHash csvTimeout) [sig, v] =
          (relativeLockElapsed env csvTimeout &&
            env.checkSig sig ourKey.SerializeCompressed)) ∧
      (∀ sig,
        runScript env (toUsRedeemScript ourKey theirKey revokeHash csvTimeout) [sig] =
          false) := by
  refine ⟨?_, ?_, ?_⟩
  · intro witness v hlast hq hrun
    have h := runEngine_toUs_stack env ourKey theirKey revokeHash csvTimeout ho ht hr hc witness
    unfold runScript at hrun
    unfold runTrace
    rw [h] at hrun ⊢
    rcases hw : witness.reverse with _ | ⟨x, _ | ⟨sig, below⟩⟩
    · rw [hw, execute_toUs_short env _ _ _ _ hc [] (by simp)] at hrun
      simp at hrun
    · rw [hw, execute_toUs_short env _ _ _ _ hc [x] (by simp)] at hrun
      simp at hrun
    · have hxv : x = v := by
        have h1 : witness.getLast? = witness.reverse.head? := List.getLast?_eq_head?_reverse
        rw [hw, hlast] at h1
        exact (Option.some.inj h1).symm
      subst hxv
      rw [hw, execute_toUs_of_ne env _ _ _ _ hc x sig below hq] at hrun
      rw [execute_toUs_of_ne env _ _ _ _ hc x sig below hq]
      by_cases hs : sequenceOk env csvTimeout = true
      · simp only [hs, if_true, Engine.success, asBool_fromBool, List.isEmpty_nil,
          Bool.true_and] at hrun
        exact ⟨sig, by simp [hs], hrun⟩
      · simp [hs] at hrun
  · intro sig v hq h0 h1
    have h := runEngine_toUs_stack env ourKey theirKey revokeHash csvTimeout ho ht hr hc [sig, v]
    unfold runScript
    rw [h]
    have hrev : [sig, v].reverse = [v, sig] := rfl
    rw [hrev, execute_toUs_of_ne env _ _ _ _ hc v sig [] hq,
      ← sequenceOk_of_blocks env csvTimeout h0 h1]
    by_cases hs : sequenceOk env csvTimeout = true
    · simp [hs, Engine.success, asBool_fromBool]
    · simp [hs]
  · intro sig
    have h := runEngine_toUs_stack env ourKey theirKey revokeHash csvTimeout ho ht hr hc [sig]
    unfold runScript
    rw [h]
    have hrev : [sig].reverse = [sig] := rfl
    rw [hrev, execute_toUs_short env _ _ _ _ hc [sig] (by simp)]

/-- Witness of the amended C3: the owner's signature and one more item, on an
output 1000 blocks old with a time-out of 144, succeed. -/
theorem toUs_owner_path_witness :
    runScript (sampleEnv 0 1000)
      (toUsRedeemScript sampleOurKey sampleTheirKey sampleRevokeHash 144)
      [sampleSig sampleOurKey, []] = true := by
  have h := (toUs_owner_path (sampleEnv 0 1000) sampleOurKey sampleTheirKey sampleRevokeHash
    144 sampleOurKey_fits sampleTheirKey_fits sampleRevokeHash_length scriptNumRange_144).2.1
    (sampleSig sampleOurKey) [] (by decide) (by decide) (by decide)
  rw [h, sampleEnv_checkSig_self 0 1000 sampleOurKey]
  decide

/-- C4: on an initial stack of exactly the two items `sigTheirs`, `sigOurs`
(`sigOurs` on top), at any height, the funding script succeeds if and only if
`sigOurs` is valid under `ourKey` and `sigTheirs` under `theirKey`; a run
that ends without error made exactly these two signature checks, the first in
the `OP_IF` branch, and no lock-time check. -/
theorem funding_two_signatures (env : Env) (fundingTimeLock : Int)
    (ourKey theirKey : PublicKey) (ho : ourKey.X < 2 ^ 256) (ht : theirKey.X < 2 ^ 256)
    (hl : scriptNumRange fundingTimeLock) (sigTheirs sigOurs : List Nat) :
    (runScript env (fundingRedeemScript fundingTimeLock ourKey theirKey)
          [sigTheirs, sigOurs] = true ↔
        env.checkSig sigOurs ourKey.SerializeCompressed = true ∧
          env.checkSig sigTheirs theirKey.SerializeCompressed = true) ∧
      (∀ tr,
        runTrace env (fundingRedeemScript fundingTimeLock ourKey theirKey)
            [sigTheirs, sigOurs] = some tr →
          tr = [Event.sigCheck sigOurs ourKey.SerializeCompressed,
            Event.sigCheck sigTheirs theirKey.SerializeCompressed]) := by
  have h := runEngine_funding_two env fundingTimeLock ourKey theirKey ho ht hl sigTheirs sigOurs
  unfold runScript runTrace fundingRedeemScript
  rw [h]
  by_cases h1 : env.checkSig sigOurs ourKey.SerializeCompressed = true
  · simp [h1, Engine.success, asBool_fromBool]
  · simp [h1]

/-- Witness of C4: both sample signatures, at height 0 with a time lock of
100, satisfy the funding script. -/
theorem funding_two_signatures_witness :
    runScript (sampleEnv 0 0) (fundingRedeemScript 100 sampleOurKey sampleTheirKey)
      [sampleSig sampleTheirKey, sampleSig sampleOurKey] = true :=
  (funding_two_signatures (sampleEnv 0 0) 100 sampleOurKey sampleTheirKey sampleOurKey_fits
    sampleTheirKey_fits scriptNumRange_100 (sampleSig sampleTheirKey)
    (sampleSig sampleOurKey)).1.2
    ⟨sampleEnv_checkSig_self 0 0 sampleOurKey, sampleEnv_checkSig_self 0 0 sampleTheirKey⟩

/-- C5 (the code falls short of it): on an initial stack of a single item the
funding script fails at every height, also at or above `fundingTimeLock` and
whatever key the signature is valid under: in the `OP_ELSE` branch
`OP_CHECKSIG` consumes the signature with the time lock as its key, and the
last `OP_CHECKSIG` finds one item only. -/
theorem funding_single_signature_fails (env : Env) (fundingTimeLock : Int)
    (ourKey theirKey : PublicKey) (ho : ourKey.X < 2 ^ 256) (ht : theirKey.X < 2 ^ 256)
    (hl : scriptNumRange fundingTimeLock) (sig : List Nat) :
    runScript env (fundingRedeemScript fundingTimeLock ourKey theirKey) [sig] = false := by
  have h := runEngine_funding_one env fundingTimeLock ourKey theirKey ho ht hl sig
  unfold runScript fundingRedeemScript
  rw [h]

/-- Witness of C5's theorem: a valid signature at height 500, time lock 100. -/
theorem funding_single_signature_fails_witness :
    (100 : Int) ≤ ((sampleEnv 500 0).lockTime : Int) ∧
      (sampleEnv 500 0).checkSig (sampleSig sampleTheirKey)
        sampleTheirKey.SerializeCompressed = true ∧
      runScript (sampleEnv 500 0) (fundingRedeemScript 100 sampleOurKey sampleTheirKey)
        [sampleSig sampleTheirKey] = false :=
  ⟨by decide, sampleEnv_checkSig_self 500 0 sampleTheirKey,
    funding_single_signature_fails (sampleEnv 500 0) 100 sampleOurKey sampleTheirKey
      sampleOurKey_fits sampleTheirKey_fits scriptNumRange_100 (sampleSig sampleTheirKey)⟩

/-- C6: the script of the second output of `createCommitTx` is `P2SHify` of
the 25-byte pay-to-pubkey-hash script
`OP_DUP OP_HASH160 <Hash160(theirKey)> OP_EQUALVERIFY OP_CHECKSIG`, an
expression of `theirKey` alone. -/
theorem createCommitTx_toThem_script (hash160 : List Nat → List Nat)
    (hh : ∀ b, (hash160 b).length = 20) (fundingOutput : TxIn) (ourKey theirKey : PublicKey)
    (ho : ourKey.X < 2 ^ 256) (ht : theirKey.X < 2 ^ 256) (revokeHash : List Nat)
    (hr : revokeHash.length = 32) (csvTimeout : Int) (hc : scriptNumRange csvTimeout)
    (amtToUs amtToThem : Int) :
    ∃ tx pkScript,
      createCommitTx hash160 fundingOutput ourKey theirKey revokeHash csvTimeout amtToUs
          amtToThem = Except.ok tx ∧
      tx.TxOut[1]? = some { Value := amtToThem, PkScript := pkScript } ∧
      P2SHify hash160
          (0x76 :: 0xa9 :: 0x14 :: (hash160 theirKey.SerializeCompressed ++ [0x88, 0xac])) =
        Except.ok pkScript ∧
      (0x76 :: 0xa9 :: 0x14 :: (hash160 theirKey.SerializeCompressed ++ [0x88, 0xac])).length =
        25 := by
  refine ⟨_, _,
    createCommitTx_eq hash160 hh fundingOutput ourKey theirKey ho ht revokeHash hr csvTimeout hc
      amtToUs amtToThem, rfl, P2SHify_eq hash160 _ (hh _), ?_⟩
  simp [hh]

/-- Witness of C6 at the sample inputs. -/
theorem createCommitTx_toThem_script_witness :
    ∃ tx pkScript,
      createCommitTx sampleHash160 sampleFundingOutput sampleOurKey sampleTheirKey
          sampleRevokeHash 144 600000 400000 = Except.ok tx ∧
      tx.TxOut[1]? = some { Value := 400000, PkScript := pkScript } ∧
      P2SHify sampleHash160
          (0x76 :: 0xa9 :: 0x14 ::
            (sampleHash160 sampleTheirKey.SerializeCompressed ++ [0x88, 0xac])) =
        Except.ok pkScript ∧
      (0x76 :: 0xa9 :: 0x14 ::
          (sampleHash160 sampleTheirKey.SerializeCompressed ++ [0x88, 0xac])).length = 25 :=
  createCommitTx_toThem_script sampleHash160 sampleHash160_length sampleFundingOutput
    sampleOurKey sampleTheirKey sampleOurKey_fits sampleTheirKey_fits sampleRevokeHash
    sampleRevokeHash_length 144 scriptNumRange_144 600000 400000

/-- C7: for every byte string, `P2SHify` returns no error and the 23 bytes
`0xa9`, `0x14`, the 20 bytes of `Hash160(scriptBytes)`, `0x87`. -/
theorem P2SHify_envelope (hash160 : List Nat → List Nat) (hh : ∀ b, (hash160 b).length = 20)
    (scriptBytes : List Nat) :
    P2SHify hash160 scriptBytes = Except.ok (0xa9 :: 0x14 :: (hash160 scriptBytes ++ [0x87])) ∧
      (0xa9 :: 0x14 :: (hash160 scriptBytes ++ [0x87])).length = 23 := by
  refine ⟨P2SHify_eq hash160 scriptBytes (hh _), ?_⟩
  simp [hh]

/-- Witness of C7: the empty script and a script of 20000 bytes, longer than
the largest script. -/
theorem P2SHify_envelope_witness :
    (P2SHify sampleHash160 [] = Except.ok (0xa9 :: 0x14 :: (sampleHash160 [] ++ [0x87])) ∧
        (0xa9 :: 0x14 :: (sampleHash160 [] ++ [0x87])).length = 23) ∧
      (P2SHify sampleHash160 (List.replicate 20000 0x51) =
          Except.ok (0xa9 :: 0x14 :: (sampleHash160 (List.replicate 20000 0x51) ++ [0x87])) ∧
        (0xa9 :: 0x14 :: (sampleHash160 (List.replicate 20000 0x51) ++ [0x87])).length = 23) :=
  ⟨P2SHify_envelope sampleHash160 sampleHash160_length [],
    P2SHify_envelope sampleHash160 sampleHash160_length (List.replicate 20000 0x51)⟩

/-- C8 as stated fails: with `amtToUs = 0` and `amtToThem = 1000` the outputs
of `createCommitTx` are not those of the dust policy, for any threshold
`0 < dust ≤ 1000`: the zero-valued output is kept. -/
theorem createCommitTx_keeps_dust_output :
    ¬ ∃ dust : Int, 0 < dust ∧ dust ≤ 1000 ∧
        outputValues
            (createCommitTx sampleHash160 sampleFundingOutput sampleOurKey sampleTheirKey
              sampleRevokeHash 144 0 1000) =
          some (specDustPolicyValues dust 0 1000) := by
  rintro ⟨dust, h0, h1, h⟩
  rw [createCommitTx_eq sampleHash160 sampleHash160_length sampleFundingOutput sampleOurKey
    sampleTheirKey sampleOurKey_fits sampleTheirKey_fits sampleRevokeHash
    sampleRevokeHash_length 144 scriptNumRange_144 0 1000] at h
  have hd : specDustPolicyValues dust 0 1000 = [0 + 1000] := by
    unfold specDustPolicyValues
    rw [if_pos ⟨h0, h1⟩]
  rw [hd] at h
  simp [outputValues] at h

/-- C8, amended: `createCommitTx` has no dust threshold; for all amounts the
transaction has both outputs, carrying `amtToUs` and `amtToThem` unchanged in
this order. -/
theorem createCommitTx_output_values (hash160 : List Nat → List Nat)
    (hh : ∀ b, (hash160 b).length = 20) (fundingOutput : TxIn) (ourKey theirKey : PublicKey)
    (ho : ourKey.X < 2 ^ 256) (ht : theirKey.X < 2 ^ 256) (revokeHash : List Nat)
    (hr : revokeHash.length = 32) (csvTimeout : Int) (hc : scriptNumRange csvTimeout)
    (amtToUs amtToThem : Int) :
    outputValues
        (createCommitTx hash160 fundingOutput ourKey theirKey revokeHash csvTimeout amtToUs
          amtToThem) =
      some [amtToUs, amtToThem] := by
  rw [createCommitTx_eq hash160 hh fundingOutput ourKey theirKey ho ht revokeHash hr csvTimeout
    hc amtToUs amtToThem]
  rfl

/-- Witness of the amended C8: amounts 1 and 1000000. -/
theorem createCommitTx_output_values_witness :
    outputValues
        (createCommitTx sampleHash160 sampleFundingOutput sampleOurKey sampleTheirKey
          sampleRevokeHash 144 1 1000000) =
      some [1, 1000000] :=
  createCommitTx_output_values sampleHash160 sampleHash160_length sampleFundingOutput
    sampleOurKey sampleTheirKey sampleOurKey_fits sampleTheirKey_fits sampleRevokeHash
    sampleRevokeHash_length 144 scriptNumRange_144 1 1000000

/-- C9 as stated fails: a key that is not a point of the curve draws no
error from `createCommitTx`. -/
theorem createCommitTx_accepts_off_curve_key :
    offCurveKey.IsOnCurve = false ∧
      isError
        (createCommitTx sampleHash160 sampleFundingOutput offCurveKey sampleTheirKey
          sampleRevokeHash 144 600000 400000) = false := by
  refine ⟨by decide, ?_⟩
  rw [createCommitTx_eq sampleHash160 sampleHash160_length sampleFundingOutput offCurveKey
    sampleTheirKey offCurveKey_fits sampleTheirKey_fits sampleRevokeHash
    sampleRevokeHash_length 144 scriptNumRange_144 600000 400000]
  rfl

/-- C9, amended: `createCommitTx` returns an error exactly when one of its two
script builders holds one (a script or a data element over the size limits);
it makes no check that a key is a point of the curve, and for keys with
256-bit coordinates, on the curve or not, a 32-byte revocation hash and a
time-out `scriptNum` encodes, it returns no error. -/
theorem createCommitTx_error_iff_builder_error (hash160 : List Nat → List Nat)
    (hh : ∀ b, (hash160 b).length = 20) (fundingOutput : TxIn) (ourKey theirKey : PublicKey)
    (revokeHash : List Nat) (csvTimeout : Int) (amtToUs amtToThem : Int) :
    (isError
          (createCommitTx hash160 fundingOutput ourKey theirKey revokeHash csvTimeout amtToUs
            amtToThem) = true ↔
        (scriptToUsBuilder ourKey.SerializeCompressed theirKey.SerializeCompressed revokeHash
            csvTimeout).err ≠ none ∨
          (scriptToThemBuilder hash160 theirKey.SerializeCompressed).err ≠ none) ∧
      (ourKey.X < 2 ^ 256 → theirKey.X < 2 ^ 256 → revokeHash.length = 32 →
        scriptNumRange csvTimeout →
        isError
          (createCommitTx hash160 fundingOutput ourKey theirKey revokeHash csvTimeout amtToUs
            amtToThem) = false) := by
  constructor
  · unfold createCommitTx
    generalize scriptToUsBuilder ourKey.SerializeCompressed theirKey.SerializeCompressed
      revokeHash csvTimeout = b1
    generalize scriptToThemBuilder hash160 theirKey.SerializeCompressed = b2
    rcases b1 with ⟨s1, _ | e1⟩ <;> rcases b2 with ⟨s2, _ | e2⟩ <;>
      simp [ScriptBuilder.Script, P2SHify_eq _ _ (hh _), isError, bind, Except.bind, pure,
        Except.pure]
  · intro ho ht hr hc
    rw [createCommitTx_eq hash160 hh fundingOutput ourKey theirKey ho ht revokeHash hr
      csvTimeout hc amtToUs amtToThem]
    rfl

/-- Witness of the amended C9: no error for the off-curve key. -/
theorem createCommitTx_error_iff_builder_error_witness :
    isError
      (createCommitTx sampleHash160 sampleFundingOutput offCurveKey sampleTheirKey
        sampleRevokeHash 144 600000 400000) = false :=
  (createCommitTx_error_iff_builder_error sampleHash160 sampleHash160_length
    sampleFundingOutput offCurveKey sampleTheirKey sampleRevokeHash 144 600000 400000).2
    offCurveKey_fits sampleTheirKey_fits sampleRevokeHash_length scriptNumRange_144

/-- C10 (the code falls short of it): for all arguments `createCLTVFundingTx`
returns the fresh transaction of `wire.NewMsgTx()`, with no input and no
output; the script it assembled is not used. -/
theorem createCLTVFundingTx_returns_empty (fundingTimeLock : Int)
    (ourKey theirKey : PublicKey) :
    createCLTVFundingTx fundingTimeLock ourKey theirKey =
      Except.ok { Version := 1, TxIn := [], TxOut := [], LockTime := 0 } := by
  rfl

theorem wrapInt64_of_range (x : Int) (h0 : -2 ^ 63 ≤ x) (h1 : x < 2 ^ 63) : wrapInt64 x = x := by
  unfold wrapInt64
  norm_num at h0 h1 ⊢
  omega

/-- C11 as stated fails: on the channel freshly built with 600000 to us and
400000 to them, `OurBalance` and `TheirBalance` return 0, not the funds
the channel holds. -/
theorem balances_of_fresh_channel_are_zero :
    ∃ lc,
      newLightningChannel 1 2 3 (List.replicate 32 9) 600000 400000 4 5 6 sampleTheirKey
          sampleOurKey sampleTheirKey (some NewMsgTx) (some sampleCommitTx) = Except.ok lc ∧
      lc.ourTotalFunds = 600000 ∧ lc.theirTotalFunds = 400000 ∧
      lc.OurBalance.value = 0 ∧ lc.TheirBalance.value = 0 ∧
      lc.OurBalance.value ≠ lc.ourTotalFunds ∧ lc.TheirBalance.value ≠ lc.theirTotalFunds := by
  refine ⟨_, rfl, rfl, rfl, rfl, rfl, ?_, ?_⟩ <;> decide

/-- C11, amended: for every channel `OurBalance` and `TheirBalance` return 0,
whatever the funds the channel holds; a channel freshly returned by
`newLightningChannel` holds `ourFunds` and `theirFunds` in its fields
`ourTotalFunds` and `theirTotalFunds`, and its balance methods return 0 too. -/
theorem balances_return_zero (lc : LightningChannel) (wallet events dbNamespace : Nat)
    (theirNodeID : List Nat) (ourFunds theirFunds : Int) (ourChain theirChain : Nat)
    (ourFundingKey : Nat) (theirFundingKey commitKey theirCommitKey : PublicKey)
    (fundingTx commitTx : Option MsgTx) :
    (lc.OurBalance.value = 0 ∧ lc.TheirBalance.value = 0) ∧
      ∃ fresh,
        newLightningChannel wallet events dbNamespace theirNodeID ourFunds theirFunds ourChain
            theirChain ourFundingKey theirFundingKey commitKey theirCommitKey fundingTx
            commitTx = Except.ok fresh ∧
        fresh.ourTotalFunds = ourFunds ∧ fresh.theirTotalFunds = theirFunds ∧
        fresh.OurBalance.value = 0 ∧ fresh.TheirBalance.value = 0 :=
  ⟨⟨rfl, rfl⟩, _, rfl, rfl, rfl, rfl, rfl⟩

/-- C12: `newLightningChannel` returns no error and a channel with
`ourTotalFunds = ourFunds`, `theirTotalFunds = theirFunds` and `capacity` the
`int64` sum of the two; the sum of the two funds in `int64` arithmetic is at
most `capacity` on every fresh channel, and when the funds are not negative
and their sum does not overflow, `capacity = ourFunds + theirFunds` exactly
and `ourTotalFunds + theirTotalFunds ≤ capacity`. -/
theorem newLightningChannel_capacity (wallet events dbNamespace : Nat)
    (theirNodeID : List Nat) (ourFunds theirFunds : Int) (ourChain theirChain : Nat)
    (ourFundingKey : Nat) (theirFundingKey commitKey theirCommitKey : PublicKey)
    (fundingTx commitTx : Option MsgTx) :
    ∃ lc,
      newLightningChannel wallet events dbNamespace theirNodeID ourFunds theirFunds ourChain
          theirChain ourFundingKey theirFundingKey commitKey theirCommitKey fundingTx
          commitTx = Except.ok lc ∧
      lc.ourTotalFunds = ourFunds ∧ lc.theirTotalFunds = theirFunds ∧
      lc.capacity = wrapInt64 (ourFunds + theirFunds) ∧
      wrapInt64 (lc.ourTotalFunds + lc.theirTotalFunds) ≤ lc.capacity ∧
      (0 ≤ ourFunds → 0 ≤ theirFunds → ourFunds + theirFunds < 2 ^ 63 →
        lc.capacity = ourFunds + theirFunds ∧
          lc.ourTotalFunds + lc.theirTotalFunds ≤ lc.capacity) := by
  refine ⟨_, rfl, rfl, rfl, rfl, le_refl _, ?_⟩
  intro h0 h1 h2
  have hw : wrapInt64 (ourFunds + theirFunds) = ourFunds + theirFunds :=
    wrapInt64_of_range _ (by have : (0 : Int) ≤ 2 ^ 63 := by norm_num
                             omega) h2
  exact ⟨hw, le_of_eq hw.symm⟩

/-- Witness of C12: funds 600000 and 400000 give capacity 1000000; funds
`2^62` and `2^62`, whose sum overflows, give the wrapped capacity `-2^63`,
which the wrapped sum of the funds does not exceed. -/
theorem newLightningChannel_capacity_witness :
    (∃ lc,
        newLightningChannel 1 2 3 (List.replicate 32 9) 600000 400000 4 5 6 sampleTheirKey
            sampleOurKey sampleTheirKey (some NewMsgTx) (some sampleCommitTx) = Except.ok lc ∧
        lc.capacity = 600000 + 400000 ∧
        lc.ourTotalFunds + lc.theirTotalFunds ≤ lc.capacity) ∧
      (∃ lc,
        newLightningChannel 1 2 3 (List.replicate 32 9) (2 ^ 62) (2 ^ 62) 4 5 6 sampleTheirKey
            sampleOurKey sampleTheirKey (some NewMsgTx) (some sampleCommitTx) = Except.ok lc ∧
        lc.capacity = -2 ^ 63 ∧
        wrapInt64 (lc.ourTotalFunds + lc.theirTotalFunds) ≤ lc.capacity) := by
  constructor
  · obtain ⟨lc, h, _, _, _, _, h6⟩ :=
      newLightningChannel_capacity 1 2 3 (List.replicate 32 9) 600000 400000 4 5 6
        sampleTheirKey sampleOurKey sampleTheirKey (some NewMsgTx) (some sampleCommitTx)
    exact ⟨lc, h, h6 (by decide) (by decide) (by decide)⟩
  · obtain ⟨lc, h, _, _, h4, h5, _⟩ :=
      newLightningChannel_capacity 1 2 3 (List.replicate 32 9) (2 ^ 62) (2 ^ 62) 4 5 6
        sampleTheirKey sampleOurKey sampleTheirKey (some NewMsgTx) (some sampleCommitTx)
    refine ⟨lc, h, ?_, h5⟩
    rw [h4]
    decide

/-- C13 as stated fails: with a balance of 10000, and 9500 + 600 above the
balance less a reserve of 1000, `AddHTLC` reports no error; nor does the
twelfth call in a row, past `MaxPendingPayments`. -/
theorem AddHTLC_reports_no_error :
    sampleChannel.ourTotalFunds = 10000 ∧
      (9500 : Int) + 600 > sampleChannel.ourTotalFunds - 1000 ∧
      sampleChannel.AddHTLC.err = none ∧
      MaxPendingPayments < 11 ∧
      (Nat.iterate (fun lc => lc.AddHTLC.channel) 11 sampleChannel).AddHTLC.err = none := by
  refine ⟨rfl, by decide, rfl, by decide, rfl⟩

/-- C13, amended: `AddHTLC` takes no HTLC and has no error result; it never
fails, with `InsufficientBalance`, `TooManyHTLCs` or otherwise, and it leaves
the channel as it was. -/
theorem AddHTLC_never_fails (lc : LightningChannel) :
    lc.AddHTLC.err = none ∧ lc.AddHTLC.channel = lc :=
  ⟨rfl, rfl⟩

/-- C14 as stated fails: the empty signature is not valid under the
counterparty's commitment key, and `AddTheirSig` followed by
`VerifyCommitmentUpdate` returns no error for it. -/
theorem AddTheirSig_accepts_invalid_signature :
    (sampleEnv 0 0).checkSig [] sampleChannel.theirCommitKey.SerializeCompressed = false ∧
      (sampleChannel.AddTheirSig []).err = none ∧
      (sampleChannel.AddTheirSig []).channel.VerifyCommitmentUpdate.err = none := by
  refine ⟨by simp [sampleEnv], rfl, rfl⟩

/-- C14, amended: `AddTheirSig` followed by `VerifyCommitmentUpdate` returns a
nil error for every signature, valid for the current commitment transaction or
not, and leaves the current commitment transaction unchanged. -/
theorem AddTheirSig_then_verify (lc : LightningChannel) (sig : List Nat) :
    (lc.AddTheirSig sig).err = none ∧
      (lc.AddTheirSig sig).channel.VerifyCommitmentUpdate.err = none ∧
      (lc.AddTheirSig sig).channel.VerifyCommitmentUpdate.channel.commitmentTx =
        lc.commitmentTx :=
  ⟨rfl, rfl, rfl⟩

/-- C17: every method of `LightningChannel` leaves the channel, and so each
of `capacity`, `ourTotalFunds`, `theirTotalFunds`, `fundingTx` and
`commitmentTx`, as it was, for every channel and every argument, and the
methods with an error result return nil. -/
theorem methods_leave_channel_unchanged (lc : LightningChannel) (commitTx : Option MsgTx)
    (sig : List Nat) :
    lc.AddHTLC.channel = lc ∧ lc.SettleHTLC.channel = lc ∧ lc.OurBalance.channel = lc ∧
      lc.TheirBalance.channel = lc ∧ lc.CurrentCommitTx.channel = lc ∧
      (lc.SignTheirCommitTx commitTx).channel = lc ∧ (lc.AddTheirSig sig).channel = lc ∧
      lc.VerifyCommitmentUpdate.channel = lc ∧
      (lc.SignTheirCommitTx commitTx).err = none ∧ (lc.AddTheirSig sig).err = none ∧
      lc.VerifyCommitmentUpdate.err = none :=
  ⟨rfl, rfl, rfl, rfl, rfl, rfl, rfl, rfl, rfl, rfl, rfl⟩

/-- C15: the first three instructions `OP_HASH160 <revokeHash> OP_EQUAL` of
the to-us redeem script leave false on the stack for every value on top, a
20-byte digest never being the 32-byte `revokeHash`; so `OP_IF` always enters
the branch that is not executed, every run that ends without error has made
the time-out check and then one signature check, against `ourKey`, and no run,
failed or not, makes any other check. -/
theorem toUs_revocation_branch_never_runs (env : Env) (ourKey theirKey : PublicKey)
    (revokeHash : List Nat) (csvTimeout : Int) (ho : ourKey.X < 2 ^ 256)
    (ht : theirKey.X < 2 ^ 256) (hr : revokeHash.length = 32) (hc : scriptNumRange csvTimeout)
    (hh : ∀ b, (env.hash160 b).length = 20) :
    (∃ rest,
        toUsRedeemScript ourKey theirKey revokeHash csvTimeout =
          toUsPrefixBytes revokeHash ++ OP_IF :: rest) ∧
      (∀ below v,
        runEngine env (toUsPrefixBytes revokeHash) (below ++ [v]) =
          some { dstack := fromBool false :: below.reverse, condStack := [], trace := [] }) ∧
      (∀ below v,
        runEngine env (toUsPrefixBytes revokeHash ++ [OP_IF]) (below ++ [v]) =
          some { dstack := below.reverse, condStack := [OpCond.condFalse], trace := [] }) ∧
      (∀ witness tr,
        runTrace env (toUsRedeemScript ourKey theirKey revokeHash csvTimeout) witness =
            some tr →
          ∃ sig, tr = [Event.sequenceCheck csvTimeout,
            Event.sigCheck sig ourKey.SerializeCompressed]) ∧
      (∀ witness tr,
        runTraceUntilStop env (toUsRedeemScript ourKey theirKey revokeHash csvTimeout)
            witness = some tr →
          ∀ e ∈ tr, e = Event.sequenceCheck csvTimeout ∨
            ∃ sig, e = Event.sigCheck sig ourKey.SerializeCompressed) := by
  have hol := SerializeCompressed_length ourKey ho
  have htl := SerializeCompressed_length theirKey ht
  have hne : ∀ x, revokeHash ≠ env.hash160 x := by
    intro x h
    have := congrArg List.length h
    rw [hr, hh x] at this
    omega
  have hscript : toUsRedeemScript ourKey theirKey revokeHash csvTimeout =
      toUsScriptBytes ourKey.SerializeCompressed theirKey.SerializeCompressed revokeHash
        csvTimeout := by
    unfold toUsRedeemScript
    rw [scriptToUsBuilder_eq _ _ _ _ hol htl hr hc]
  refine ⟨⟨_, hscript.trans (toUsScriptBytes_split _ _ _ _)⟩, ?_, ?_, ?_, ?_⟩
  · intro below v
    unfold runEngine
    rw [parseScript_toUsPrefix _ hr, Option.some_bind, List.reverse_append, List.reverse_singleton,
      List.singleton_append]
    exact execute_toUsPrefix env revokeHash hne v below.reverse
  · intro below v
    unfold runEngine
    rw [parseScript_toUsPrefix_if _ hr, Option.some_bind, List.reverse_append,
      List.reverse_singleton, List.singleton_append]
    exact execute_toUsPrefix_if env revokeHash hne v below.reverse
  · intro witness tr htr
    have h := runEngine_toUs env ourKey theirKey revokeHash csvTimeout ho ht hr hc hh witness
    unfold runTrace toUsRedeemScript at htr
    rw [h] at htr
    rcases hw : witness.reverse with _ | ⟨x, _ | ⟨sig, below⟩⟩
    · rw [hw] at htr; simp at htr
    · rw [hw] at htr; simp at htr
    · rw [hw] at htr
      by_cases hs : sequenceOk env csvTimeout = true
      · simp only [hs, if_true, Option.map_some', Option.some.injEq] at htr
        exact ⟨sig, htr.symm⟩
      · simp [hs] at htr
  · intro witness tr htr
    unfold runTraceUntilStop at htr
    rw [hscript, parseScript_toUs _ _ _ _ hol htl hr hc, Option.map_some',
      Option.some.injEq] at htr
    rw [← htr]
    exact traceUntilStop_toUs env _ _ _ _ hc hne witness.reverse

/-- Witness of C15: with the counterparty's signature below a value, the
first three instructions leave false on top of the stack. -/
theorem toUs_revocation_branch_never_runs_witness :
    runEngine (sampleEnv 0 0) (toUsPrefixBytes sampleRevokeHash)
        ([sampleSig sampleTheirKey] ++ [[1, 2, 3]]) =
      some { dstack := fromBool false :: [sampleSig sampleTheirKey].reverse, condStack := [],
             trace := [] } :=
  (toUs_revocation_branch_never_runs (sampleEnv 0 0) sampleOurKey sampleTheirKey
    sampleRevokeHash 144 sampleOurKey_fits sampleTheirKey_fits sampleRevokeHash_length
    scriptNumRange_144 (sampleEnv_hash160_length 0 0)).2.1 [sampleSig sampleTheirKey] [1, 2, 3]

/-- C16: the to-us redeem script is injective in its parameters: for 33-byte
serialized keys, 32-byte revocation hashes and time-outs `scriptNum` encodes,
two scripts with the same bytes have the same `theirKey`, `revokeHash`,
`csvTimeout` and `ourKey`. -/
theorem toUsScript_injective (ourKey ourKey2 theirKey theirKey2 revokeHash revokeHash2 :
    List Nat) (csvTimeout csvTimeout2 : Int) (ho : ourKey.length = 33)
    (ho2 : ourKey2.length = 33) (ht : theirKey.length = 33) (ht2 : theirKey2.length = 33)
    (hr : revokeHash.length = 32) (hr2 : revokeHash2.length = 32)
    (hc : scriptNumRange csvTimeout) (hc2 : scriptNumRange csvTimeout2)
    (h : (scriptToUsBuilder ourKey theirKey revokeHash csvTimeout).script =
      (scriptToUsBuilder ourKey2 theirKey2 revokeHash2 csvTimeout2).script) :
    theirKey = theirKey2 ∧ revokeHash = revokeHash2 ∧ csvTimeout = csvTimeout2 ∧
      ourKey = ourKey2 := by
  rw [scriptToUsBuilder_eq _ _ _ _ ho ht hr hc, scriptToUsBuilder_eq _ _ _ _ ho2 ht2 hr2 hc2]
    at h
  have hb : toUsScriptBytes ourKey theirKey revokeHash csvTimeout =
      toUsScriptBytes ourKey2 theirKey2 revokeHash2 csvTimeout2 := h
  have hp := congrArg parseScript hb
  rw [parseScript_toUs _ _ _ _ ho ht hr hc, parseScript_toUs _ _ _ _ ho2 ht2 hr2 hc2] at hp
  have hops := Option.some.inj hp
  unfold toUsOps at hops
  simp only [List.cons.injEq, ParsedOpcode.mk.injEq, true_and, and_true] at hops
  obtain ⟨h1, h2, h3, h4⟩ := hops
  exact ⟨h2, h1, intInstr_injective _ _ hc hc2 h3, h4⟩

/-- Witness of C16 at the sample inputs; the scripts for the time-outs 16 and
17, a small-integer opcode and a one-byte push, differ. -/
theorem toUsScript_injective_witness :
    (sampleTheirKey.SerializeCompressed = sampleTheirKey.SerializeCompressed ∧
        sampleRevokeHash = sampleRevokeHash ∧ (144 : Int) = 144 ∧
        sampleOurKey.SerializeCompressed = sampleOurKey.SerializeCompressed) ∧
      (scriptToUsBuilder sampleOurKey.SerializeCompressed sampleTheirKey.SerializeCompressed
          sampleRevokeHash 16).script ≠
        (scriptToUsBuilder sampleOurKey.SerializeCompressed sampleTheirKey.SerializeCompressed
          sampleRevokeHash 17).script :=
  ⟨toUsScript_injective sampleOurKey.SerializeCompressed sampleOurKey.SerializeCompressed
      sampleTheirKey.SerializeCompressed sampleTheirKey.SerializeCompressed sampleRevokeHash
      sampleRevokeHash 144 144 (SerializeCompressed_length _ sampleOurKey_fits)
      (SerializeCompressed_length _ sampleOurKey_fits)
      (SerializeCompressed_length _ sampleTheirKey_fits)
      (SerializeCompressed_length _ sampleTheirKey_fits) sampleRevokeHash_length
      sampleRevokeHash_length scriptNumRange_144 scriptNumRange_144 rfl,
    fun h =>
      absurd
        (toUsScript_injective sampleOurKey.SerializeCompressed sampleOurKey.SerializeCompressed
          sampleTheirKey.SerializeCompressed sampleTheirKey.SerializeCompressed
          sampleRevokeHash sampleRevokeHash 16 17
          (SerializeCompressed_length _ sampleOurKey_fits)
          (SerializeCompressed_length _ sampleOurKey_fits)
          (SerializeCompressed_length _ sampleTheirKey_fits)
          (SerializeCompressed_length _ sampleTheirKey_fits) sampleRevokeHash_length
          sampleRevokeHash_length (by decide) (by decide) h).2.2.1
        (by decide)⟩

end Wallet
